import Mathlib

/-!
Verification development for the chay process-supervision daemon.

The Rust sources are shallowly embedded: machine-word counters become `Nat`
(no arithmetic here ever approaches overflow behaviour that the code relies
on), monotonic instants become `Nat` timestamps, and every effectful OS probe
(child liveness, exit statuses, spawn success) is an explicit oracle input of
type `World` passed to each call.  A Rust panic is modelled as `Option.none`.

`Program.exit_status_unchecked` is called from `program_fsm.rs` but its body is
not part of the sources; following its spec description ("returns
{not-yet-exited | exited(code) | probe-error} without consuming the handle")
its answer is exactly the `ExitProbe` oracle value of the corresponding child
slot in the `World` for the ongoing call.
-/

/-- Signals the supervisor sends (`nix::sys::signal::Signal`, restricted to the
two values the daemon uses). -/
inductive Signal where
  | SIGTERM
  | SIGKILL
deriving DecidableEq

/-- Oracle answer for one probe of one child process: `Ok(None)` (still
running), `Ok(Some(status))` with its success bit, or `Err(_)`. -/
inductive ExitProbe where
  | notExited
  | exited (success : Bool)
  | probeErr
deriving DecidableEq

/-- OS-side facts visible to the supervisor during one call: one probe answer
and one spawn outcome per child slot of a program context. -/
structure World where
  program_probe : ExitProbe
  pre_command_probe : ExitProbe
  logger_probe : ExitProbe
  logger_pre_command_probe : ExitProbe
  program_spawn_ok : Bool
  pre_command_spawn_ok : Bool
  logger_spawn_ok : Bool
  logger_pre_command_spawn_ok : Bool
deriving DecidableEq

/-- Environment of a single `update`/`react` call: the OS world before signals
are sent (`w1`), the OS world at the re-checks and hooks after signals were
sent (`w2`), and the current instant. -/
structure Env where
  w1 : World
  w2 : World
  now : Nat
deriving DecidableEq

/-- `chay::fsm::MachineResult = Result<Option<String>, String>`. -/
abbrev MachineResult := Except String (Option String)

/-- One hook firing, recorded for the instrumented machine. -/
inductive HookEv (K : Type) where
  | enter (k : K)
  | exit (k : K)
deriving DecidableEq

/-- The callbacks of one boxed `chay::fsm::State` object.  The per-state
mutable data of all state objects lives in the shared type `S`; a callback
receives the current state key and returns the (possibly `transition`ed)
requested key together with the updated data.  `none` models a panic. -/
structure FsmState (E K S C Ev : Type) where
  update : E → K → S → C → Option (K × S × C)
  react : E → Ev → K → S → C → Option ((K × S × C) × MachineResult)
  enter : E → S → C → Option (S × C)
  exit : E → S → C → Option (S × C)

/-- `chay::fsm::Machine`, minus the (immutable) states map, which is passed to
the operations explicitly. -/
structure Machine (K S C : Type) where
  app_context : C
  states : S
  current_state_key : K
  first_update : Bool
deriving DecidableEq

/-- `Machine::maybe_enter_on_first_update`, instrumented with the hook trace. -/
def Machine.maybe_enter_on_first_update {E K S C Ev : Type}
    (sdefs : K → FsmState E K S C Ev) (env : E) (m : Machine K S C) :
    Option (Machine K S C × List (HookEv K)) :=
  if m.first_update then
    match (sdefs m.current_state_key).enter env m.states m.app_context with
    | none => none
    | some (s, c) =>
        some ({ m with first_update := false, states := s, app_context := c },
              [HookEv.enter m.current_state_key])
  else
    some (m, [])

/-- `Machine::maybe_change_state`, instrumented with the hook trace. -/
def Machine.maybe_change_state {E K S C Ev : Type} [DecidableEq K]
    (sdefs : K → FsmState E K S C Ev) (env : E) (old_state_key : K)
    (m : Machine K S C) : Option (Machine K S C × List (HookEv K)) :=
  if m.current_state_key = old_state_key then
    some (m, [])
  else
    match (sdefs old_state_key).exit env m.states m.app_context with
    | none => none
    | some (s1, c1) =>
        match (sdefs m.current_state_key).enter env s1 c1 with
        | none => none
        | some (s2, c2) =>
            some ({ m with states := s2, app_context := c2 },
                  [HookEv.exit old_state_key, HookEv.enter m.current_state_key])

/-- `Machine::update`. -/
def Machine.update {E K S C Ev : Type} [DecidableEq K]
    (sdefs : K → FsmState E K S C Ev) (env : E) (m : Machine K S C) :
    Option (Machine K S C × List (HookEv K)) :=
  match Machine.maybe_enter_on_first_update sdefs env m with
  | none => none
  | some (m1, h1) =>
      match (sdefs m1.current_state_key).update env m1.current_state_key
          m1.states m1.app_context with
      | none => none
      | some (k2, s2, c2) =>
          match Machine.maybe_change_state sdefs env m1.current_state_key
              { m1 with current_state_key := k2, states := s2, app_context := c2 } with
          | none => none
          | some (m3, h2) => some (m3, h1 ++ h2)

/-- `Machine::react`. -/
def Machine.react {E K S C Ev : Type} [DecidableEq K]
    (sdefs : K → FsmState E K S C Ev) (env : E) (event : Ev) (m : Machine K S C) :
    Option ((Machine K S C × List (HookEv K)) × MachineResult) :=
  match Machine.maybe_enter_on_first_update sdefs env m with
  | none => none
  | some (m1, h1) =>
      match (sdefs m1.current_state_key).react env event m1.current_state_key
          m1.states m1.app_context with
      | none => none
      | some ((k2, s2, c2), result) =>
          match Machine.maybe_change_state sdefs env m1.current_state_key
              { m1 with current_state_key := k2, states := s2, app_context := c2 } with
          | none => none
          | some (m3, h2) => some ((m3, h1 ++ h2), result)

/-- `config::PreCommandConfig`. -/
structure PreCommandConfig where
  command : String
  args : Option (List String)
  timeout_secs : Nat
deriving DecidableEq

/-- `config::LoggerConfig`. -/
structure LoggerConfig where
  command : String
  args : Option (List String)
  pre_command : Option PreCommandConfig
  start_wait_secs : Nat
deriving DecidableEq

/-- `config::ProgramConfig` (the policy fields the supervision core reads;
the `logger` name reference is resolved away by `config::render`). -/
structure ProgramConfig where
  command : String
  args : Option (List String)
  pre_command : Option PreCommandConfig
  start_wait_secs : Nat
  autostart : Bool
  autorestart : Bool
  backoff_delay_secs : Nat
  num_restart_attempts : Nat
  sigkill_delay_secs : Nat
deriving DecidableEq

/-- `config::RenderedProgramConfig`. -/
structure RenderedProgramConfig where
  program : ProgramConfig
  logger : Option LoggerConfig
deriving DecidableEq

def RenderedProgramConfig.autostart (c : RenderedProgramConfig) : Bool :=
  c.program.autostart

def RenderedProgramConfig.autorestart (c : RenderedProgramConfig) : Bool :=
  c.program.autorestart

def RenderedProgramConfig.backoff_delay_secs (c : RenderedProgramConfig) : Nat :=
  c.program.backoff_delay_secs

def RenderedProgramConfig.num_restart_attempts (c : RenderedProgramConfig) : Nat :=
  c.program.num_restart_attempts

def RenderedProgramConfig.sigkill_delay_secs (c : RenderedProgramConfig) : Nat :=
  c.program.sigkill_delay_secs

/-- `program::Program` (the child wrapper).  `child_proc` records whether an OS
handle is held; the liveness of the underlying process is a `World` oracle. -/
structure Program where
  name : String
  command : String
  args : Option (List String)
  child_proc : Bool
deriving DecidableEq

def Program.new (name command : String) (args : Option (List String)) : Program :=
  { name := name, command := command, args := args, child_proc := false }

/-- `Program::is_running`: true only when a handle is held and the probe says
the process has not exited (probe errors count as not running). -/
def Program.is_running (p : Program) (probe : ExitProbe) : Bool :=
  p.child_proc && (probe == ExitProbe.notExited)

/-- `Program::reap`: a no-op on a dead or absent handle, a panic (`none`) on a
live one. -/
def Program.reap (p : Program) (probe : ExitProbe) : Option Unit :=
  if p.child_proc && (probe == ExitProbe.notExited) then none else some ()

/-- `Program::reset_child_proc`. -/
def Program.reset_child_proc (p : Program) (probe : ExitProbe) : Option Program :=
  match p.reap probe with
  | none => none
  | some _ => some { p with child_proc := false }

/-- `Program::start`.  Returns `none` on the reap panic; otherwise the success
bit of the spawn (`false` = `SpawnError`, handle stays cleared) and the updated
wrapper.  `pipe_stdin` and the presence of a parent-stdin target only shape the
OS-side pipe plumbing, which the model does not track beyond the call sites'
handle requirements. -/
def Program.start (p : Program) (_pipe_stdin : Bool) (probe : ExitProbe)
    (spawn_ok : Bool) : Option (Bool × Program) :=
  match p.reset_child_proc probe with
  | none => none
  | some q =>
      if spawn_ok then some (true, { q with child_proc := true })
      else some (false, q)

/-- `program_context::PrecommandStatus`. -/
inductive PrecommandStatus where
  | RUNNING
  | SUCCESS
  | ERROR
deriving DecidableEq

/-- `program_context::SubprogramStatus`. -/
inductive SubprogramStatus where
  | STARTING
  | SUCCESS
  | ERROR
deriving DecidableEq

/-- `program_context::PrecommandContext`. -/
structure PrecommandContext where
  program : Program
  timeout : Nat
  start_time : Option Nat
deriving DecidableEq

/-- `PrecommandContext::reset`. -/
def PrecommandContext.reset (pc : PrecommandContext) (probe : ExitProbe) :
    Option PrecommandContext :=
  match pc.program.reset_child_proc probe with
  | none => none
  | some p => some { pc with program := p, start_time := none }

/-- `program_context::SubprogramContext`. -/
structure SubprogramContext where
  program : Program
  start_wait : Nat
  start_time : Option Nat
deriving DecidableEq

/-- `SubprogramContext::reset`. -/
def SubprogramContext.reset (sp : SubprogramContext) (probe : ExitProbe) :
    Option SubprogramContext :=
  match sp.program.reset_child_proc probe with
  | none => none
  | some p => some { sp with program := p, start_time := none }

/-- `program_context::ProgramContext`. -/
structure ProgramContext where
  name : String
  config : RenderedProgramConfig
  program : SubprogramContext
  pre_command : Option PrecommandContext
  logger : Option SubprogramContext
  logger_pre_command : Option PrecommandContext
  num_restarts : Nat
  should_restart : Bool
  sigterm_time : Option Nat
deriving DecidableEq

def logger_pre_command_name (program_name : String) : String :=
  program_name ++ "-logger-pre-command"

def logger_name (program_name : String) : String :=
  program_name ++ "-logger"

def pre_command_name (program_name : String) : String :=
  program_name ++ "-pre-command"

/-- `ProgramContext::new`. -/
def ProgramContext.new (name : String) (config : RenderedProgramConfig) :
    ProgramContext :=
  { name := name
    config := config
    program :=
      { program := Program.new name config.program.command config.program.args
        start_wait := config.program.start_wait_secs
        start_time := none }
    pre_command :=
      match config.program.pre_command with
      | some pcc =>
          some { program := Program.new (pre_command_name name) pcc.command pcc.args
                 timeout := pcc.timeout_secs
                 start_time := none }
      | none => none
    logger :=
      match config.logger with
      | some lc =>
          some { program := Program.new (logger_name name) lc.command lc.args
                 start_wait := lc.start_wait_secs
                 start_time := none }
      | none => none
    logger_pre_command :=
      match config.logger with
      | some lc =>
          match lc.pre_command with
          | some lpcc =>
              some { program :=
                       Program.new (logger_pre_command_name name) lpcc.command lpcc.args
                     timeout := lpcc.timeout_secs
                     start_time := none }
          | none => none
      | none => none
    num_restarts := 0
    should_restart := false
    sigterm_time := none }

/-- `ProgramContext::all_programs_are_running`. -/
def ProgramContext.all_programs_are_running (c : ProgramContext) (w : World) : Bool :=
  (match c.logger with
   | some lg => lg.program.is_running w.logger_probe
   | none => true) &&
  c.program.program.is_running w.program_probe

/-- `ProgramContext::all_programs_are_stopped`. -/
def ProgramContext.all_programs_are_stopped (c : ProgramContext) (w : World) : Bool :=
  !c.program.program.is_running w.program_probe &&
  (match c.pre_command with
   | some pc => !pc.program.is_running w.pre_command_probe
   | none => true) &&
  (match c.logger with
   | some lg => !lg.program.is_running w.logger_probe
   | none => true) &&
  (match c.logger_pre_command with
   | some lpc => !lpc.program.is_running w.logger_pre_command_probe
   | none => true)

/-- Reset of an optional pre-command slot (`if let Some(..) = .. { ..reset() }`). -/
def reset_opt_pre (opc : Option PrecommandContext) (probe : ExitProbe) :
    Option (Option PrecommandContext) :=
  match opc with
  | none => some none
  | some pc =>
      match pc.reset probe with
      | none => none
      | some pc2 => some (some pc2)

/-- Reset of an optional subprogram slot. -/
def reset_opt_sub (osp : Option SubprogramContext) (probe : ExitProbe) :
    Option (Option SubprogramContext) :=
  match osp with
  | none => some none
  | some sp =>
      match sp.reset probe with
      | none => none
      | some sp2 => some (some sp2)

/-- `ProgramContext::reset`: reap every child, clear `sigterm_time`; keeps
`num_restarts` and `should_restart`. -/
def ProgramContext.reset (c : ProgramContext) (w : World) : Option ProgramContext :=
  match c.program.reset w.program_probe,
        reset_opt_pre c.pre_command w.pre_command_probe,
        reset_opt_sub c.logger w.logger_probe,
        reset_opt_pre c.logger_pre_command w.logger_pre_command_probe with
  | some prog, some pre, some lg, some lpc =>
      some { c with program := prog, pre_command := pre, logger := lg,
                    logger_pre_command := lpc, sigterm_time := none }
  | _, _, _, _ => none

/-- The four child slots of a program context, for recording signal sends. -/
inductive ChildSlot where
  | pre_command
  | logger_pre_command
  | logger
  | program
deriving DecidableEq

/-- Whether the child held in a given slot is live, per the world `w`. -/
def ProgramContext.slot_is_running (c : ProgramContext) (w : World)
    (slot : ChildSlot) : Bool :=
  match slot with
  | .pre_command =>
      match c.pre_command with
      | some pc => pc.program.is_running w.pre_command_probe
      | none => false
  | .logger_pre_command =>
      match c.logger_pre_command with
      | some lpc => lpc.program.is_running w.logger_pre_command_probe
      | none => false
  | .logger =>
      match c.logger with
      | some lg => lg.program.is_running w.logger_probe
      | none => false
  | .program => c.program.program.is_running w.program_probe

/-- `ProgramContext::send_signal_to_all_running_programs`, returning the sends
performed (send errors are logged and swallowed; nothing else changes). -/
def ProgramContext.send_signal_to_all_running_programs (c : ProgramContext)
    (w : World) (signal : Signal) : List (ChildSlot × Signal) :=
  (if c.slot_is_running w .pre_command then [(ChildSlot.pre_command, signal)] else []) ++
  (if c.slot_is_running w .logger_pre_command then
     [(ChildSlot.logger_pre_command, signal)] else []) ++
  (if c.slot_is_running w .logger then [(ChildSlot.logger, signal)] else []) ++
  (if c.slot_is_running w .program then [(ChildSlot.program, signal)] else [])

/-- `ProgramContext::send_sigterm_or_sigkill_signal_to_all_running_programs`:
first call (no `sigterm_time`) SIGTERMs everything live and stamps the time;
later calls SIGKILL everything live once `sigkill_delay_secs` have elapsed. -/
def ProgramContext.send_sigterm_or_sigkill_signal_to_all_running_programs
    (c : ProgramContext) (w : World) (now : Nat) :
    ProgramContext × List (ChildSlot × Signal) :=
  match c.sigterm_time with
  | some sigterm_time =>
      if c.config.sigkill_delay_secs ≤ now - sigterm_time then
        (c, c.send_signal_to_all_running_programs w .SIGKILL)
      else
        (c, [])
  | none =>
      ({ c with sigterm_time := some now },
       c.send_signal_to_all_running_programs w .SIGTERM)

/-- `program_fsm::ProgramEvent`. -/
inductive ProgramEvent where
  | Start
  | Stop
  | Restart
deriving DecidableEq

/-- `program_fsm::ProgramState`. -/
inductive ProgramState where
  | Stopped
  | Exited
  | Backoff
  | Starting
  | Running
  | Stopping
  | Exiting
deriving DecidableEq

/-- The mutable data of the boxed `Backoff` state object (`enter_time`,
`skip_backoff_delay`); all other state objects are field-free. -/
structure Backoff where
  enter_time : Option Nat
  skip_backoff_delay : Bool
deriving DecidableEq

/-- `program_fsm::transition_to_exited_or_exiting` (as the state it selects). -/
def transition_to_exited_or_exiting (c : ProgramContext) (w : World) : ProgramState :=
  if c.all_programs_are_stopped w then ProgramState.Exited else ProgramState.Exiting

/-- `program_fsm::transition_to_backoff_or_exiting` (as the state it selects). -/
def transition_to_backoff_or_exiting (c : ProgramContext) (w : World) : ProgramState :=
  if c.config.autorestart && decide (c.num_restarts < c.config.num_restart_attempts) then
    ProgramState.Backoff
  else
    transition_to_exited_or_exiting c w

/-- `program_fsm::transition_to_stopped_or_restart`. -/
def transition_to_stopped_or_restart (should_restart : Bool) : ProgramState :=
  if should_restart then ProgramState.Starting else ProgramState.Stopped

/-- `program_fsm::transition_to_exited_or_restart`. -/
def transition_to_exited_or_restart (should_restart : Bool) : ProgramState :=
  if should_restart then ProgramState.Starting else ProgramState.Exited

/-- `Stopped::react`. -/
def Stopped.react (_env : Env) (event : ProgramEvent) (k : ProgramState)
    (s : Backoff) (c : ProgramContext) :
    Option ((ProgramState × Backoff × ProgramContext) × MachineResult) :=
  some (match event with
  | .Start => ((ProgramState.Starting, s, c), .ok none)
  | .Stop => ((k, s, c), .ok (some "Already stopped"))
  | .Restart => ((ProgramState.Starting, s, c), .ok (some "Wasn't running (was stopped)")))

/-- `Stopped::enter`. -/
def Stopped.enter (env : Env) (s : Backoff) (c : ProgramContext) :
    Option (Backoff × ProgramContext) :=
  match ProgramContext.reset { c with num_restarts := 0 } env.w2 with
  | none => none
  | some c2 => some (s, c2)

/-- `Exited::react`. -/
def Exited.react (_env : Env) (event : ProgramEvent) (k : ProgramState)
    (s : Backoff) (c : ProgramContext) :
    Option ((ProgramState × Backoff × ProgramContext) × MachineResult) :=
  some (match event with
  | .Start => ((ProgramState.Starting, s, c), .ok none)
  | .Stop => ((k, s, c), .ok (some "Already stopped (exited)"))
  | .Restart => ((ProgramState.Starting, s, c), .ok (some "Wasn't running (was exited)")))

/-- `Exited::enter`. -/
def Exited.enter (env : Env) (s : Backoff) (c : ProgramContext) :
    Option (Backoff × ProgramContext) :=
  match ProgramContext.reset { c with num_restarts := 0 } env.w2 with
  | none => none
  | some c2 => some (s, c2)

/-- `Backoff::update`: first drive the previous run's children down via the
graceful-termination protocol; once everything is stopped, leave for
`Starting` immediately when `skip_backoff_delay` is set, else after
`backoff_delay_secs`. -/
def Backoff.update (env : Env) (k : ProgramState) (s : Backoff)
    (c : ProgramContext) : Option (ProgramState × Backoff × ProgramContext) :=
  let rest := fun (c2 : ProgramContext) =>
    if s.skip_backoff_delay then some (ProgramState.Starting, s, c2)
    else
      match s.enter_time with
      | none => none
      | some enter_time =>
          if c2.config.backoff_delay_secs ≤ env.now - enter_time then
            some (ProgramState.Starting, s, c2)
          else
            some (k, s, c2)
  if !c.all_programs_are_stopped env.w1 then
    let c2 := (c.send_sigterm_or_sigkill_signal_to_all_running_programs env.w1 env.now).1
    if !c2.all_programs_are_stopped env.w2 then some (k, s, c2)
    else rest c2
  else rest c

/-- `Backoff::react`. -/
def Backoff.react (env : Env) (event : ProgramEvent) (k : ProgramState)
    (s : Backoff) (c : ProgramContext) :
    Option ((ProgramState × Backoff × ProgramContext) × MachineResult) :=
  some (match event with
  | .Start =>
      let c2 := { c with num_restarts := 0 }
      if c2.all_programs_are_stopped env.w1 then
        ((ProgramState.Starting, s, c2), .ok (some "Already starting (was backoff)"))
      else
        ((k, { s with skip_backoff_delay := true }, c2),
         .ok (some "Will start after backoff cleanup"))
  | .Stop => ((ProgramState.Stopping, s, c), .ok none)
  | .Restart =>
      let c2 := { c with num_restarts := 0 }
      if c2.all_programs_are_stopped env.w1 then
        ((ProgramState.Starting, s, c2), .ok (some "Wasn't running (was backoff)"))
      else
        ((k, { s with skip_backoff_delay := true }, c2),
         .ok (some "Will restart after backoff cleanup")))

/-- `Backoff::enter`. -/
def Backoff.enter (env : Env) (_s : Backoff) (c : ProgramContext) :
    Option (Backoff × ProgramContext) :=
  some ({ skip_backoff_delay := false, enter_time := some env.now },
        { c with sigterm_time := none, num_restarts := c.num_restarts + 1 })

/-- `Backoff::exit`. -/
def Backoff.exit (env : Env) (s : Backoff) (c : ProgramContext) :
    Option (Backoff × ProgramContext) :=
  match c.reset env.w2 with
  | none => none
  | some c2 => some (s, c2)

/-- `Starting::check_pre_command`: spawn lazily, then poll; non-zero exit,
probe error, spawn error or timeout are `ERROR`. -/
def Starting.check_pre_command (pc : PrecommandContext) (probe : ExitProbe)
    (spawn_ok : Bool) (now : Nat) : Option (PrecommandStatus × PrecommandContext) :=
  match pc.start_time with
  | some start_time =>
      some (match probe with
        | .notExited =>
            if pc.timeout < now - start_time then (.ERROR, pc) else (.RUNNING, pc)
        | .exited ok => if ok then (.SUCCESS, pc) else (.ERROR, pc)
        | .probeErr => (.ERROR, pc))
  | none =>
      match pc.program.start false probe spawn_ok with
      | none => none
      | some (ok, p2) =>
          if ok then some (.RUNNING, { pc with program := p2, start_time := some now })
          else some (.ERROR, { pc with program := p2 })

/-- `Starting::check_subprogram` (assumes the subprogram was started; the
missing `start_time` is the modelled `unwrap` panic). -/
def Starting.check_subprogram (sp : SubprogramContext) (probe : ExitProbe)
    (now : Nat) : Option SubprogramStatus :=
  match sp.start_time with
  | none => none
  | some start_time =>
      some (match probe with
        | .notExited =>
            if sp.start_wait ≤ now - start_time then .SUCCESS else .STARTING
        | .exited _ => .ERROR
        | .probeErr => .ERROR)

/-- The observable actions of one `Starting::update` tick, in program order,
each tagged with whether the action let the bring-up proceed. -/
inductive SAct where
  | checkLoggerPre
  | checkPre
  | spawnLogger (pipe_stdin : Bool)
  | spawnPrimary (into_logger : Bool)
  | checkPrimary
  | checkLogger
deriving DecidableEq

abbrev STrace := List (SAct × Bool)

abbrev SFinal := ProgramState × Backoff × ProgramContext

/-- Sequencing of `Starting::update` stages: an early `return` in the Rust is
`Except.error` with the call's final outcome; traces concatenate. -/
def Starting.stage_seq (x : Option (Except SFinal ProgramContext × STrace))
    (f : ProgramContext → Option (Except SFinal ProgramContext × STrace)) :
    Option (Except SFinal ProgramContext × STrace) :=
  match x with
  | none => none
  | some (Except.error fin, tr) => some (Except.error fin, tr)
  | some (Except.ok c, tr) =>
      match f c with
      | none => none
      | some (r, tr2) => some (r, tr ++ tr2)

/-- Stage 1 of `Starting::update`: the logger pre-command, when configured. -/
def Starting.stage_logger_pre_command (w : World) (now : Nat) (k : ProgramState)
    (s : Backoff) (c : ProgramContext) :
    Option (Except SFinal ProgramContext × STrace) :=
  match c.logger_pre_command with
  | none => some (.ok c, [])
  | some lpc =>
      match Starting.check_pre_command lpc w.logger_pre_command_probe
          w.logger_pre_command_spawn_ok now with
      | none => none
      | some (st, lpc2) =>
          let c2 := { c with logger_pre_command := some lpc2 }
          let tr := [(SAct.checkLoggerPre, st == PrecommandStatus.SUCCESS)]
          match st with
          | .RUNNING => some (.error (k, s, c2), tr)
          | .SUCCESS => some (.ok c2, tr)
          | .ERROR =>
              some (.error (transition_to_backoff_or_exiting c2 w, s, c2), tr)

/-- Stage 2 of `Starting::update`: the primary's pre-command, when configured. -/
def Starting.stage_pre_command (w : World) (now : Nat) (k : ProgramState)
    (s : Backoff) (c : ProgramContext) :
    Option (Except SFinal ProgramContext × STrace) :=
  match c.pre_command with
  | none => some (.ok c, [])
  | some pc =>
      match Starting.check_pre_command pc w.pre_command_probe
          w.pre_command_spawn_ok now with
      | none => none
      | some (st, pc2) =>
          let c2 := { c with pre_command := some pc2 }
          let tr := [(SAct.checkPre, st == PrecommandStatus.SUCCESS)]
          match st with
          | .RUNNING => some (.error (k, s, c2), tr)
          | .SUCCESS => some (.ok c2, tr)
          | .ERROR =>
              some (.error (transition_to_backoff_or_exiting c2 w, s, c2), tr)

/-- Spawning the primary with stdout+stderr wired into the logger's retained
stdin (`program.start(false, Some(logger_child))`); the absent logger handle is
the modelled `unwrap` panic. -/
def Starting.spawn_primary_into_logger (w : World) (now : Nat) (_k : ProgramState)
    (s : Backoff) (lg : SubprogramContext) (c : ProgramContext) :
    Option (Except SFinal ProgramContext × STrace) :=
  if c.program.start_time.isNone then
    if !lg.program.child_proc then none
    else
      match c.program.program.start false w.program_probe w.program_spawn_ok with
      | none => none
      | some (ok, p2) =>
          if ok then
            some (.ok { c with program :=
                          { c.program with program := p2, start_time := some now } },
                  [(SAct.spawnPrimary true, true)])
          else
            let c2 := { c with program := { c.program with program := p2 } }
            some (.error (transition_to_backoff_or_exiting c2 w, s, c2),
                  [(SAct.spawnPrimary true, false)])
  else some (.ok c, [])

/-- Stage 3 of `Starting::update`: spawn the logger (stdin piped) and then the
primary wired into it, or the primary standalone when no logger is
configured.  Nothing respawns once its `start_time` is set. -/
def Starting.stage_spawn (w : World) (now : Nat) (k : ProgramState) (s : Backoff)
    (c : ProgramContext) : Option (Except SFinal ProgramContext × STrace) :=
  match c.logger with
  | some lg =>
      if lg.start_time.isNone then
        match lg.program.start true w.logger_probe w.logger_spawn_ok with
        | none => none
        | some (ok, p2) =>
            if ok then
              let lg2 := { lg with program := p2, start_time := some now }
              let c2 := { c with logger := some lg2 }
              match Starting.spawn_primary_into_logger w now k s lg2 c2 with
              | none => none
              | some (r, tr) => some (r, (SAct.spawnLogger true, true) :: tr)
            else
              let c2 := { c with logger := some { lg with program := p2 } }
              some (.error (transition_to_backoff_or_exiting c2 w, s, c2),
                    [(SAct.spawnLogger true, false)])
      else
        Starting.spawn_primary_into_logger w now k s lg c
  | none =>
      if c.program.start_time.isNone then
        match c.program.program.start false w.program_probe w.program_spawn_ok with
        | none => none
        | some (ok, p2) =>
            if ok then
              some (.ok { c with program :=
                            { c.program with program := p2, start_time := some now } },
                    [(SAct.spawnPrimary false, true)])
            else
              let c2 := { c with program := { c.program with program := p2 } }
              some (.error (transition_to_backoff_or_exiting c2 w, s, c2),
                    [(SAct.spawnPrimary false, false)])
      else some (.ok c, [])

/-- Stage 4 of `Starting::update`: the primary's start-wait gate. -/
def Starting.stage_check_primary (w : World) (now : Nat) (k : ProgramState)
    (s : Backoff) (c : ProgramContext) :
    Option (Except SFinal ProgramContext × STrace) :=
  match Starting.check_subprogram c.program w.program_probe now with
  | none => none
  | some st =>
      let tr := [(SAct.checkPrimary, st == SubprogramStatus.SUCCESS)]
      match st with
      | .STARTING => some (.error (k, s, c), tr)
      | .SUCCESS => some (.ok c, tr)
      | .ERROR => some (.error (transition_to_backoff_or_exiting c w, s, c), tr)

/-- Stage 5 of `Starting::update`: the logger's start-wait gate, checked after
the primary's so that a primary failure surfaces first. -/
def Starting.stage_check_logger (w : World) (now : Nat) (k : ProgramState)
    (s : Backoff) (c : ProgramContext) :
    Option (Except SFinal ProgramContext × STrace) :=
  match c.logger with
  | none => some (.ok c, [])
  | some lg =>
      match Starting.check_subprogram lg w.logger_probe now with
      | none => none
      | some st =>
          let tr := [(SAct.checkLogger, st == SubprogramStatus.SUCCESS)]
          match st with
          | .STARTING => some (.error (k, s, c), tr)
          | .SUCCESS => some (.ok c, tr)
          | .ERROR => some (.error (transition_to_backoff_or_exiting c w, s, c), tr)

/-- `Starting::update`, instrumented with the action trace. -/
def Starting.update_traced (env : Env) (k : ProgramState) (s : Backoff)
    (c : ProgramContext) : Option (SFinal × STrace) :=
  let w := env.w1
  let now := env.now
  match Starting.stage_seq (Starting.stage_seq (Starting.stage_seq
      (Starting.stage_seq
        (Starting.stage_logger_pre_command w now k s c)
        (Starting.stage_pre_command w now k s))
        (Starting.stage_spawn w now k s))
        (Starting.stage_check_primary w now k s))
        (Starting.stage_check_logger w now k s) with
  | none => none
  | some (.error fin, tr) => some (fin, tr)
  | some (.ok c2, tr) => some ((ProgramState.Running, s, c2), tr)

/-- `Starting::update` as the machine sees it. -/
def Starting.update (env : Env) (k : ProgramState) (s : Backoff)
    (c : ProgramContext) : Option (ProgramState × Backoff × ProgramContext) :=
  match Starting.update_traced env k s c with
  | none => none
  | some (fin, _) => some fin

/-- `Starting::react`. -/
def Starting.react (_env : Env) (event : ProgramEvent) (k : ProgramState)
    (s : Backoff) (c : ProgramContext) :
    Option ((ProgramState × Backoff × ProgramContext) × MachineResult) :=
  some (match event with
  | .Start => ((k, s, { c with num_restarts := 0 }), .ok (some "Already starting"))
  | .Stop => ((ProgramState.Stopping, s, c), .ok none)
  | .Restart =>
      ((ProgramState.Stopping, s, { c with num_restarts := 0, should_restart := true }),
       .ok none))

/-- `Running::update`. -/
def Running.update (env : Env) (k : ProgramState) (s : Backoff)
    (c : ProgramContext) : Option (ProgramState × Backoff × ProgramContext) :=
  if !c.all_programs_are_running env.w1 then
    some (transition_to_backoff_or_exiting c env.w1, s, c)
  else
    some (k, s, c)

/-- `Running::react`. -/
def Running.react (_env : Env) (event : ProgramEvent) (k : ProgramState)
    (s : Backoff) (c : ProgramContext) :
    Option ((ProgramState × Backoff × ProgramContext) × MachineResult) :=
  some (match event with
  | .Start => ((k, s, c), .ok (some "Already running"))
  | .Stop => ((ProgramState.Stopping, s, { c with should_restart := false }), .ok none)
  | .Restart => ((ProgramState.Stopping, s, { c with should_restart := true }), .ok none))

/-- `Running::enter`. -/
def Running.enter (_env : Env) (s : Backoff) (c : ProgramContext) :
    Option (Backoff × ProgramContext) :=
  some (s, { c with num_restarts := 0 })

/-- `Stopping::update`. -/
def Stopping.update (env : Env) (k : ProgramState) (s : Backoff)
    (c : ProgramContext) : Option (ProgramState × Backoff × ProgramContext) :=
  if c.all_programs_are_stopped env.w1 then
    some (transition_to_stopped_or_restart c.should_restart, s, c)
  else
    let c2 := (c.send_sigterm_or_sigkill_signal_to_all_running_programs env.w1 env.now).1
    if c2.all_programs_are_stopped env.w2 then
      some (transition_to_stopped_or_restart c2.should_restart, s, c2)
    else
      some (k, s, c2)

/-- `Stopping::react`. -/
def Stopping.react (_env : Env) (event : ProgramEvent) (k : ProgramState)
    (s : Backoff) (c : ProgramContext) :
    Option ((ProgramState × Backoff × ProgramContext) × MachineResult) :=
  some (match event with
  | .Start => ((k, s, c), .error "Cannot start while stopping")
  | .Stop =>
      ((k, s, { c with should_restart := false }), .ok (some "Already stopping"))
  | .Restart =>
      ((k, s, { c with should_restart := true }), .ok (some "Will restart after stopping")))

/-- `Stopping::enter`. -/
def Stopping.enter (_env : Env) (s : Backoff) (c : ProgramContext) :
    Option (Backoff × ProgramContext) :=
  some (s, { c with sigterm_time := none, num_restarts := 0 })

/-- `Stopping::exit`. -/
def Stopping.exit (env : Env) (s : Backoff) (c : ProgramContext) :
    Option (Backoff × ProgramContext) :=
  match ProgramContext.reset { c with should_restart := false } env.w2 with
  | none => none
  | some c2 => some (s, c2)

/-- `Exiting::update`. -/
def Exiting.update (env : Env) (k : ProgramState) (s : Backoff)
    (c : ProgramContext) : Option (ProgramState × Backoff × ProgramContext) :=
  if c.all_programs_are_stopped env.w1 then
    some (transition_to_exited_or_restart c.should_restart, s, c)
  else
    let c2 := (c.send_sigterm_or_sigkill_signal_to_all_running_programs env.w1 env.now).1
    if c2.all_programs_are_stopped env.w2 then
      some (transition_to_exited_or_restart c2.should_restart, s, c2)
    else
      some (k, s, c2)

/-- `Exiting::react`. -/
def Exiting.react (_env : Env) (event : ProgramEvent) (k : ProgramState)
    (s : Backoff) (c : ProgramContext) :
    Option ((ProgramState × Backoff × ProgramContext) × MachineResult) :=
  some (match event with
  | .Start => ((k, s, c), .error "Cannot start while exiting")
  | .Stop =>
      ((k, s, { c with should_restart := false }), .ok (some "Already stopping (exiting)"))
  | .Restart =>
      ((k, s, { c with should_restart := true }), .ok (some "Will restart after exiting")))

/-- `Exiting::enter`. -/
def Exiting.enter (_env : Env) (s : Backoff) (c : ProgramContext) :
    Option (Backoff × ProgramContext) :=
  some (s, { c with sigterm_time := none, num_restarts := 0 })

/-- `Exiting::exit`. -/
def Exiting.exit (env : Env) (s : Backoff) (c : ProgramContext) :
    Option (Backoff × ProgramContext) :=
  match ProgramContext.reset { c with should_restart := false } env.w2 with
  | none => none
  | some c2 => some (s, c2)

/-- Default (trait-provided) `update`: do nothing. -/
def FsmState.default_update (_env : Env) (k : ProgramState) (s : Backoff)
    (c : ProgramContext) : Option (ProgramState × Backoff × ProgramContext) :=
  some (k, s, c)

/-- Default (trait-provided) `enter`/`exit`: do nothing. -/
def FsmState.default_hook (_env : Env) (s : Backoff) (c : ProgramContext) :
    Option (Backoff × ProgramContext) :=
  some (s, c)

/-- The states map built by `new_program_fsm`. -/
def programStates (k : ProgramState) :
    FsmState Env ProgramState Backoff ProgramContext ProgramEvent :=
  match k with
  | .Stopped =>
      { update := FsmState.default_update, react := Stopped.react,
        enter := Stopped.enter, exit := FsmState.default_hook }
  | .Exited =>
      { update := FsmState.default_update, react := Exited.react,
        enter := Exited.enter, exit := FsmState.default_hook }
  | .Backoff =>
      { update := Backoff.update, react := Backoff.react,
        enter := Backoff.enter, exit := Backoff.exit }
  | .Starting =>
      { update := Starting.update, react := Starting.react,
        enter := FsmState.default_hook, exit := FsmState.default_hook }
  | .Running =>
      { update := Running.update, react := Running.react,
        enter := Running.enter, exit := FsmState.default_hook }
  | .Stopping =>
      { update := Stopping.update, react := Stopping.react,
        enter := Stopping.enter, exit := Stopping.exit }
  | .Exiting =>
      { update := Exiting.update, react := Exiting.react,
        enter := Exiting.enter, exit := Exiting.exit }

abbrev ProgramFsm := Machine ProgramState Backoff ProgramContext

/-- `program_fsm::new_program_fsm`. -/
def new_program_fsm (program_name : String) (config : RenderedProgramConfig) :
    ProgramFsm :=
  { app_context := ProgramContext.new program_name config
    states := { enter_time := none, skip_backoff_delay := false }
    current_state_key :=
      if config.autostart then ProgramState.Starting else ProgramState.Stopped
    first_update := true }

/-- Helper for `wildmatch`: does `f` accept some suffix of the string? -/
def anySuffix (f : List Char → Bool) : List Char → Bool
  | [] => f []
  | c :: cs => f (c :: cs) || anySuffix f cs

/-- Shell-style glob match (`WildMatch`): `*` matches any sequence, `?` any
single character, everything else literally; case-sensitive. -/
def globMatch : List Char → List Char → Bool
  | [], s => s.isEmpty
  | p :: ps, s =>
      if p = '*' then anySuffix (globMatch ps) s
      else
        match s with
        | [] => false
        | c :: cs => if p = '?' then globMatch ps cs else (p = c) && globMatch ps cs

/-- `tonic::Status`, restricted to the one kind the dispatcher produces. -/
inductive Status where
  | not_found (msg : String)
deriving DecidableEq

/-- `chayd_service_impl::ProgramEventsResult`. -/
abbrev ProgramEventsResult := Except Status (List (String × MachineResult))

/-- One broadcast snapshot: program name to current state tag. -/
abbrev Snapshot := List (String × ProgramState)

/-- The state owned by `chayd::main`'s select loop: the FSM list (from the
name-sorted rendered config) and the `ProgramStatesChannels` senders map, with
each subscriber's sent snapshots in place of its channel. -/
structure Daemon where
  program_fsms : List ProgramFsm
  subscribers : List (Nat × List Snapshot)
deriving DecidableEq

/-- The snapshot `broadcast_program_states` builds from the FSM list. -/
def program_states_of (fsms : List ProgramFsm) : Snapshot :=
  fsms.map fun m => (m.app_context.name, m.current_state_key)

/-- `chayd_service_impl::broadcast_program_states`: send the current snapshot
to every registered subscriber. -/
def broadcast_program_states (d : Daemon) : Daemon :=
  { d with subscribers := d.subscribers.map fun sub =>
      (sub.1, sub.2 ++ [program_states_of d.program_fsms]) }

/-- `chayd::main::update_program_fsms`. -/
def update_program_fsms : List ProgramFsm → (String → Env) → Option (List ProgramFsm)
  | [], _ => some []
  | m :: rest, envf =>
      match Machine.update programStates (envf m.app_context.name) m with
      | none => none
      | some (m2, _) =>
          match update_program_fsms rest envf with
          | none => none
          | some rest2 => some (m2 :: rest2)

/-- One firing of the select loop's tick arm: update every FSM, then broadcast
a snapshot. -/
def tick (envf : String → Env) (d : Daemon) : Option Daemon :=
  match update_program_fsms d.program_fsms envf with
  | none => none
  | some fsms2 => some (broadcast_program_states { d with program_fsms := fsms2 })

/-- The dispatcher's matching rule: literal `"all"`, else glob. -/
def program_matches (program_expr program_name : String) : Bool :=
  program_expr == "all" || globMatch program_expr.toList program_name.toList

/-- The event arm's loop over the FSM list: react on every match, collecting
per-program results. -/
def react_program_fsms : List ProgramFsm → ProgramEvent → String → (String → Env) →
    Option (List ProgramFsm × List (String × MachineResult))
  | [], _, _, _ => some ([], [])
  | m :: rest, ev, expr, envf =>
      let nm := m.app_context.name
      if program_matches expr nm then
        match Machine.react programStates (envf nm) ev m with
        | none => none
        | some ((m2, _), res) =>
            match react_program_fsms rest ev expr envf with
            | none => none
            | some (ms, rs) => some (m2 :: ms, (nm, res) :: rs)
      else
        match react_program_fsms rest ev expr envf with
        | none => none
        | some (ms, rs) => some (m :: ms, rs)

/-- One firing of the select loop's event arm: react on every matching FSM,
reply (not-found when nothing matched), then broadcast a snapshot. -/
def handle_program_event (ev : ProgramEvent) (program_expr : String)
    (envf : String → Env) (d : Daemon) : Option (Daemon × ProgramEventsResult) :=
  match react_program_fsms d.program_fsms ev program_expr envf with
  | none => none
  | some (fsms2, results) =>
      let reply : ProgramEventsResult :=
        if results.isEmpty then
          Except.error (Status.not_found
            ("No programs found matching expression: " ++ program_expr))
        else Except.ok results
      some (broadcast_program_states { d with program_fsms := fsms2 }, reply)

/-- `ChaydServiceImpl::get_status`, registration part: insert the subscriber's
sender into the shared map.  No snapshot is built or sent here; the forwarding
task only relays later broadcasts. -/
def get_status_subscribe (d : Daemon) (remote_addr : Nat) : Daemon :=
  { d with subscribers :=
      d.subscribers.filter (fun sub => sub.1 != remote_addr) ++ [(remote_addr, [])] }

/-- Exactly the live slots receive exactly the requested signal. -/
theorem mem_send_signal_to_all_running_programs (c : ProgramContext) (w : World)
    (sig : Signal) (slot : ChildSlot) (sig2 : Signal) :
    (slot, sig2) ∈ c.send_signal_to_all_running_programs w sig ↔
      (sig2 = sig ∧ c.slot_is_running w slot = true) := by
  unfold ProgramContext.send_signal_to_all_running_programs
  cases slot <;>
    by_cases h1 : c.slot_is_running w .pre_command <;>
    by_cases h2 : c.slot_is_running w .logger_pre_command <;>
    by_cases h3 : c.slot_is_running w .logger <;>
    by_cases h4 : c.slot_is_running w .program <;>
    simp_all [and_comm]

/-- First call of the protocol: no `sigterm_time` yet. -/
theorem sigterm_or_sigkill_eq_of_none (c : ProgramContext) (w : World) (now : Nat)
    (h : c.sigterm_time = none) :
    c.send_sigterm_or_sigkill_signal_to_all_running_programs w now =
      ({ c with sigterm_time := some now },
       c.send_signal_to_all_running_programs w .SIGTERM) := by
  unfold ProgramContext.send_sigterm_or_sigkill_signal_to_all_running_programs
  rw [h]

/-- Later call, SIGKILL delay expired. -/
theorem sigterm_or_sigkill_eq_of_some_le (c : ProgramContext) (w : World)
    (now t : Nat) (h : c.sigterm_time = some t)
    (hd : c.config.sigkill_delay_secs ≤ now - t) :
    c.send_sigterm_or_sigkill_signal_to_all_running_programs w now =
      (c, c.send_signal_to_all_running_programs w .SIGKILL) := by
  unfold ProgramContext.send_sigterm_or_sigkill_signal_to_all_running_programs
  rw [h]
  simp [hd]

/-- Later call, SIGKILL delay not yet expired. -/
theorem sigterm_or_sigkill_eq_of_some_lt (c : ProgramContext) (w : World)
    (now t : Nat) (h : c.sigterm_time = some t)
    (hd : now - t < c.config.sigkill_delay_secs) :
    c.send_sigterm_or_sigkill_signal_to_all_running_programs w now = (c, []) := by
  unfold ProgramContext.send_sigterm_or_sigkill_signal_to_all_running_programs
  rw [h]
  simp [Nat.not_le.mpr hd]

/-- **C1.** For every `ProgramContext`, a call to
`send_sigterm_or_sigkill_signal_to_all_running_programs` with `sigterm_time`
unset sends SIGTERM to every live child and sets `sigterm_time` to the current
instant; every later call sends SIGKILL to every still-live child exactly when
at least `sigkill_delay_secs` have elapsed since `sigterm_time`, and sends
nothing otherwise. -/
theorem c1_graceful_termination_protocol (c : ProgramContext) (w : World) (now : Nat) :
    (c.sigterm_time = none →
      (c.send_sigterm_or_sigkill_signal_to_all_running_programs w now).1 =
          { c with sigterm_time := some now } ∧
      (∀ slot : ChildSlot,
        ((slot, Signal.SIGTERM) ∈
            (c.send_sigterm_or_sigkill_signal_to_all_running_programs w now).2 ↔
          c.slot_is_running w slot = true) ∧
        (slot, Signal.SIGKILL) ∉
            (c.send_sigterm_or_sigkill_signal_to_all_running_programs w now).2)) ∧
    (∀ t, c.sigterm_time = some t →
      (c.send_sigterm_or_sigkill_signal_to_all_running_programs w now).1 = c ∧
      (c.config.sigkill_delay_secs ≤ now - t →
        ∀ slot : ChildSlot,
          ((slot, Signal.SIGKILL) ∈
              (c.send_sigterm_or_sigkill_signal_to_all_running_programs w now).2 ↔
            c.slot_is_running w slot = true) ∧
          (slot, Signal.SIGTERM) ∉
              (c.send_sigterm_or_sigkill_signal_to_all_running_programs w now).2) ∧
      (now - t < c.config.sigkill_delay_secs →
        (c.send_sigterm_or_sigkill_signal_to_all_running_programs w now).2 = [])) := by
  refine ⟨fun h => ?_, fun t ht => ?_⟩
  · rw [sigterm_or_sigkill_eq_of_none c w now h]
    refine ⟨rfl, fun slot => ⟨?_, ?_⟩⟩
    · simpa using mem_send_signal_to_all_running_programs c w .SIGTERM slot .SIGTERM
    · intro hmem
      have := (mem_send_signal_to_all_running_programs c w .SIGTERM slot .SIGKILL).mp hmem
      exact absurd this.1 (by simp)
  · by_cases hd : c.config.sigkill_delay_secs ≤ now - t
    · rw [sigterm_or_sigkill_eq_of_some_le c w now t ht hd]
      refine ⟨rfl, fun _ slot => ⟨?_, ?_⟩, fun hlt => absurd hd (by omega)⟩
      · simpa using mem_send_signal_to_all_running_programs c w .SIGKILL slot .SIGKILL
      · intro hmem
        have := (mem_send_signal_to_all_running_programs c w .SIGKILL slot .SIGTERM).mp hmem
        exact absurd this.1 (by simp)
    · rw [sigterm_or_sigkill_eq_of_some_lt c w now t ht (by omega)]
      exact ⟨rfl, fun hle => absurd hle hd, fun _ => rfl⟩

/-- Concrete config used by witnesses: no pre-commands, no logger. -/
def cfg0 : RenderedProgramConfig :=
  { program :=
      { command := "/bin/true", args := none, pre_command := none,
        start_wait_secs := 0, autostart := true, autorestart := true,
        backoff_delay_secs := 1, num_restart_attempts := 2, sigkill_delay_secs := 10 }
    logger := none }

/-- A world where every probed child is still running and every spawn works. -/
def wLive : World :=
  { program_probe := .notExited, pre_command_probe := .notExited,
    logger_probe := .notExited, logger_pre_command_probe := .notExited,
    program_spawn_ok := true, pre_command_spawn_ok := true,
    logger_spawn_ok := true, logger_pre_command_spawn_ok := true }

/-- A world where every probed child has exited cleanly and every spawn works. -/
def wDead : World :=
  { program_probe := .exited true, pre_command_probe := .exited true,
    logger_probe := .exited true, logger_pre_command_probe := .exited true,
    program_spawn_ok := true, pre_command_spawn_ok := true,
    logger_spawn_ok := true, logger_pre_command_spawn_ok := true }

/-- A fresh context for `cfg0` whose primary child holds a handle. -/
def ctx1 : ProgramContext :=
  let c := ProgramContext.new "prog" cfg0
  { c with program :=
      { c.program with program := { c.program.program with child_proc := true } } }

/-- Witness for C1 at a concrete first call. -/
theorem c1_witness :
    (ctx1.send_sigterm_or_sigkill_signal_to_all_running_programs wLive 5).1 =
        { ctx1 with sigterm_time := some 5 } ∧
    ((ChildSlot.program, Signal.SIGTERM) ∈
        (ctx1.send_sigterm_or_sigkill_signal_to_all_running_programs wLive 5).2 ↔
      ctx1.slot_is_running wLive ChildSlot.program = true) :=
  ⟨((c1_graceful_termination_protocol ctx1 wLive 5).1 rfl).1,
   (((c1_graceful_termination_protocol ctx1 wLive 5).1 rfl).2 ChildSlot.program).1⟩

/-- **C2.** The backoff-or-exiting decision selects `Backoff` exactly when
`autorestart` holds and `num_restarts < num_restart_attempts`; otherwise it
selects `Exited` exactly when everything is already stopped and `Exiting`
exactly when it is not. -/
theorem c2_backoff_or_exiting_decision (c : ProgramContext) (w : World) :
    (transition_to_backoff_or_exiting c w = ProgramState.Backoff ↔
      (c.config.autorestart = true ∧
       c.num_restarts < c.config.num_restart_attempts)) ∧
    (¬(c.config.autorestart = true ∧
       c.num_restarts < c.config.num_restart_attempts) →
      ((transition_to_backoff_or_exiting c w = ProgramState.Exited ↔
          c.all_programs_are_stopped w = true) ∧
       (transition_to_backoff_or_exiting c w = ProgramState.Exiting ↔
          c.all_programs_are_stopped w = false))) := by
  unfold transition_to_backoff_or_exiting transition_to_exited_or_exiting
  cases hb : c.config.autorestart && decide (c.num_restarts < c.config.num_restart_attempts) with
  | true => simp_all
  | false => cases hs : c.all_programs_are_stopped w <;> simp_all

/-- Witness for C2 at a concrete context that still has restart budget. -/
theorem c2_witness :
    transition_to_backoff_or_exiting ctx1 wLive = ProgramState.Backoff :=
  (c2_backoff_or_exiting_decision ctx1 wLive).1.mpr ⟨rfl, by decide⟩

/-- `ProgramContext::reset` intentionally keeps `num_restarts` and
`should_restart` (and touches no policy data). -/
theorem reset_fields (c : ProgramContext) (w : World) (c2 : ProgramContext)
    (h : c.reset w = some c2) :
    c2.num_restarts = c.num_restarts ∧ c2.should_restart = c.should_restart ∧
    c2.config = c.config ∧ c2.name = c.name := by
  unfold ProgramContext.reset at h
  split at h
  · injection h with h
    subst h
    simp
  all_goals exact Option.noConfusion h

/-- Effect of each state's enter hook on the bookkeeping fields. -/
theorem enter_fields (k : ProgramState) (env : Env) (s : Backoff)
    (c : ProgramContext) (s2 : Backoff) (c2 : ProgramContext)
    (h : (programStates k).enter env s c = some (s2, c2)) :
    c2.config = c.config ∧ c2.should_restart = c.should_restart ∧
    c2.name = c.name ∧
    (k = ProgramState.Backoff → c2.num_restarts = c.num_restarts + 1) ∧
    (k = ProgramState.Starting → c2.num_restarts = c.num_restarts) ∧
    (k ≠ ProgramState.Backoff → k ≠ ProgramState.Starting → c2.num_restarts = 0) := by
  cases k <;>
    simp only [programStates, FsmState.default_hook, Stopped.enter, Exited.enter,
      Backoff.enter, Running.enter, Stopping.enter, Exiting.enter] at h
  case Stopped =>
    cases hr : ProgramContext.reset { c with num_restarts := 0 } env.w2 with
    | none => rw [hr] at h; exact Option.noConfusion h
    | some c3 =>
        rw [hr] at h
        simp only [Option.some.injEq, Prod.mk.injEq] at h
        obtain ⟨rfl, rfl⟩ := h
        have := reset_fields _ _ _ hr
        simp_all
  case Exited =>
    cases hr : ProgramContext.reset { c with num_restarts := 0 } env.w2 with
    | none => rw [hr] at h; exact Option.noConfusion h
    | some c3 =>
        rw [hr] at h
        simp only [Option.some.injEq, Prod.mk.injEq] at h
        obtain ⟨rfl, rfl⟩ := h
        have := reset_fields _ _ _ hr
        simp_all
  all_goals
    simp only [Option.some.injEq, Prod.mk.injEq] at h
  all_goals obtain ⟨rfl, rfl⟩ := h
  all_goals simp

/-- Effect of each state's exit hook on the bookkeeping fields. -/
theorem exit_fields (k : ProgramState) (env : Env) (s : Backoff)
    (c : ProgramContext) (s2 : Backoff) (c2 : ProgramContext)
    (h : (programStates k).exit env s c = some (s2, c2)) :
    c2.config = c.config ∧ c2.num_restarts = c.num_restarts ∧
    c2.name = c.name ∧
    ((k = ProgramState.Stopping ∨ k = ProgramState.Exiting) →
      c2.should_restart = false) ∧
    (k ≠ ProgramState.Stopping → k ≠ ProgramState.Exiting →
      c2.should_restart = c.should_restart) := by
  cases k <;>
    simp only [programStates, FsmState.default_hook, Backoff.exit, Stopping.exit,
      Exiting.exit] at h
  case Backoff =>
    cases hr : ProgramContext.reset c env.w2 with
    | none => rw [hr] at h; exact Option.noConfusion h
    | some c3 =>
        rw [hr] at h
        simp only [Option.some.injEq, Prod.mk.injEq] at h
        obtain ⟨rfl, rfl⟩ := h
        have := reset_fields _ _ _ hr
        simp_all
  case Stopping =>
    cases hr : ProgramContext.reset { c with should_restart := false } env.w2 with
    | none => rw [hr] at h; exact Option.noConfusion h
    | some c3 =>
        rw [hr] at h
        simp only [Option.some.injEq, Prod.mk.injEq] at h
        obtain ⟨rfl, rfl⟩ := h
        have := reset_fields _ _ _ hr
        simp_all
  case Exiting =>
    cases hr : ProgramContext.reset { c with should_restart := false } env.w2 with
    | none => rw [hr] at h; exact Option.noConfusion h
    | some c3 =>
        rw [hr] at h
        simp only [Option.some.injEq, Prod.mk.injEq] at h
        obtain ⟨rfl, rfl⟩ := h
        have := reset_fields _ _ _ hr
        simp_all
  all_goals
    simp only [Option.some.injEq, Prod.mk.injEq] at h
  all_goals obtain ⟨rfl, rfl⟩ := h
  all_goals simp

/-- Inversion of `maybe_enter_on_first_update`. -/
theorem maybe_enter_inv {E K S C Ev : Type} {sdefs : K → FsmState E K S C Ev}
    {env : E} {m m1 : Machine K S C} {h1 : List (HookEv K)}
    (h : Machine.maybe_enter_on_first_update sdefs env m = some (m1, h1)) :
    m1.current_state_key = m.current_state_key ∧ m1.first_update = false ∧
    (m.first_update = false → m1 = m ∧ h1 = []) ∧
    (m.first_update = true →
      ∃ s c, (sdefs m.current_state_key).enter env m.states m.app_context = some (s, c) ∧
        m1 = { m with first_update := false, states := s, app_context := c } ∧
        h1 = [HookEv.enter m.current_state_key]) := by
  unfold Machine.maybe_enter_on_first_update at h
  by_cases hf : m.first_update
  · rw [if_pos hf] at h
    cases he : (sdefs m.current_state_key).enter env m.states m.app_context with
    | none => rw [he] at h; exact Option.noConfusion h
    | some p =>
        obtain ⟨s, c⟩ := p
        rw [he] at h
        dsimp only at h
        simp only [Option.some.injEq, Prod.mk.injEq] at h
        obtain ⟨rfl, rfl⟩ := h
        refine ⟨rfl, rfl, fun hc => absurd hf (by simp [hc]),
          fun _ => ⟨s, c, ?_, rfl, rfl⟩⟩
        first
        | exact he
        | rfl
  · rw [if_neg hf] at h
    simp only [Option.some.injEq, Prod.mk.injEq] at h
    obtain ⟨rfl, rfl⟩ := h
    exact ⟨rfl, by simpa using hf, fun _ => ⟨rfl, rfl⟩,
      fun hc => absurd hc (by simpa using hf)⟩

/-- Inversion of `maybe_change_state`. -/
theorem maybe_change_inv {E K S C Ev : Type} [DecidableEq K]
    {sdefs : K → FsmState E K S C Ev} {env : E} {old : K}
    {m m3 : Machine K S C} {h2 : List (HookEv K)}
    (h : Machine.maybe_change_state sdefs env old m = some (m3, h2)) :
    m3.current_state_key = m.current_state_key ∧
    m3.first_update = m.first_update ∧
    (m.current_state_key = old → m3 = m ∧ h2 = []) ∧
    (m.current_state_key ≠ old →
      ∃ s1 c1 s2 c2,
        (sdefs old).exit env m.states m.app_context = some (s1, c1) ∧
        (sdefs m.current_state_key).enter env s1 c1 = some (s2, c2) ∧
        m3 = { m with states := s2, app_context := c2 } ∧
        h2 = [HookEv.exit old, HookEv.enter m.current_state_key]) := by
  unfold Machine.maybe_change_state at h
  by_cases hk : m.current_state_key = old
  · rw [if_pos hk] at h
    simp only [Option.some.injEq, Prod.mk.injEq] at h
    obtain ⟨rfl, rfl⟩ := h
    exact ⟨rfl, rfl, fun _ => ⟨rfl, rfl⟩, fun hc => absurd hk hc⟩
  · rw [if_neg hk] at h
    cases hx : (sdefs old).exit env m.states m.app_context with
    | none => rw [hx] at h; exact Option.noConfusion h
    | some p1 =>
        obtain ⟨s1, c1⟩ := p1
        rw [hx] at h
        dsimp only at h
        cases he : (sdefs m.current_state_key).enter env s1 c1 with
        | none => rw [he] at h; exact Option.noConfusion h
        | some p2 =>
            obtain ⟨s2, c2⟩ := p2
            rw [he] at h
            dsimp only at h
            simp only [Option.some.injEq, Prod.mk.injEq] at h
            obtain ⟨rfl, rfl⟩ := h
            refine ⟨rfl, rfl, fun hc => absurd hc hk,
              fun _ => ⟨s1, c1, s2, c2, ?_, ?_, rfl, rfl⟩⟩
            · first
              | exact hx
              | rfl
            · first
              | exact he
              | rfl

/-- Inversion of `Machine.update` into its three phases. -/
theorem machine_update_inv {E K S C Ev : Type} [DecidableEq K]
    {sdefs : K → FsmState E K S C Ev} {env : E} {m m3 : Machine K S C}
    {hs : List (HookEv K)}
    (h : Machine.update sdefs env m = some (m3, hs)) :
    ∃ m1 h1 k2 s2 c2 h2,
      Machine.maybe_enter_on_first_update sdefs env m = some (m1, h1) ∧
      (sdefs m1.current_state_key).update env m1.current_state_key m1.states
          m1.app_context = some (k2, s2, c2) ∧
      Machine.maybe_change_state sdefs env m1.current_state_key
          { m1 with current_state_key := k2, states := s2, app_context := c2 } =
        some (m3, h2) ∧
      hs = h1 ++ h2 := by
  unfold Machine.update at h
  cases hme : Machine.maybe_enter_on_first_update sdefs env m with
  | none => rw [hme] at h; exact Option.noConfusion h
  | some p1 =>
      obtain ⟨m1, h1⟩ := p1
      rw [hme] at h
      dsimp only at h
      cases hcb : (sdefs m1.current_state_key).update env m1.current_state_key
          m1.states m1.app_context with
      | none => rw [hcb] at h; exact Option.noConfusion h
      | some p2 =>
          obtain ⟨k2, s2, c2⟩ := p2
          rw [hcb] at h
          dsimp only at h
          cases hmc : Machine.maybe_change_state sdefs env m1.current_state_key
              { m1 with current_state_key := k2, states := s2, app_context := c2 } with
          | none => rw [hmc] at h; exact Option.noConfusion h
          | some p3 =>
              obtain ⟨m3b, h2⟩ := p3
              rw [hmc] at h
              dsimp only at h
              simp only [Option.some.injEq, Prod.mk.injEq] at h
              obtain ⟨rfl, rfl⟩ := h
              refine ⟨m1, h1, k2, s2, c2, h2, ?_, ?_, ?_, rfl⟩
              · first
                | exact hme
                | rfl
              · first
                | exact hcb
                | rfl
              · first
                | exact hmc
                | rfl

/-- Inversion of `Machine.react` into its three phases. -/
theorem machine_react_inv {E K S C Ev : Type} [DecidableEq K]
    {sdefs : K → FsmState E K S C Ev} {env : E} {event : Ev}
    {m m3 : Machine K S C} {hs : List (HookEv K)} {res : MachineResult}
    (h : Machine.react sdefs env event m = some ((m3, hs), res)) :
    ∃ m1 h1 k2 s2 c2 h2,
      Machine.maybe_enter_on_first_update sdefs env m = some (m1, h1) ∧
      (sdefs m1.current_state_key).react env event m1.current_state_key m1.states
          m1.app_context = some ((k2, s2, c2), res) ∧
      Machine.maybe_change_state sdefs env m1.current_state_key
          { m1 with current_state_key := k2, states := s2, app_context := c2 } =
        some (m3, h2) ∧
      hs = h1 ++ h2 := by
  unfold Machine.react at h
  cases hme : Machine.maybe_enter_on_first_update sdefs env m with
  | none => rw [hme] at h; exact Option.noConfusion h
  | some p1 =>
      obtain ⟨m1, h1⟩ := p1
      rw [hme] at h
      dsimp only at h
      cases hcb : (sdefs m1.current_state_key).react env event m1.current_state_key
          m1.states m1.app_context with
      | none => rw [hcb] at h; exact Option.noConfusion h
      | some p2 =>
          obtain ⟨⟨k2, s2, c2⟩, res2⟩ := p2
          rw [hcb] at h
          dsimp only at h
          cases hmc : Machine.maybe_change_state sdefs env m1.current_state_key
              { m1 with current_state_key := k2, states := s2, app_context := c2 } with
          | none => rw [hmc] at h; exact Option.noConfusion h
          | some p3 =>
              obtain ⟨m3b, h2⟩ := p3
              rw [hmc] at h
              dsimp only at h
              simp only [Option.some.injEq, Prod.mk.injEq] at h
              obtain ⟨⟨rfl, rfl⟩, rfl⟩ := h
              refine ⟨m1, h1, k2, s2, c2, h2, ?_, ?_, ?_, rfl⟩
              · first
                | exact hme
                | rfl
              · first
                | exact hcb
                | rfl
              · first
                | exact hmc
                | rfl

/-- **C8.** Delivering `Start` to a `ProgramFsm` in `Running` returns
`Ok("Already running")` and leaves the whole machine — state tag and program
context — unchanged, firing no hooks. -/
theorem c8_start_on_running_is_noop (env : Env) (m : ProgramFsm)
    (hk : m.current_state_key = ProgramState.Running)
    (hf : m.first_update = false) :
    Machine.react programStates env ProgramEvent.Start m =
      some ((m, []), Except.ok (some "Already running")) := by
  unfold Machine.react Machine.maybe_enter_on_first_update
  rw [hf]
  simp only [Bool.false_eq_true, if_false, hk, programStates, Running.react]
  unfold Machine.maybe_change_state
  simp [hk]
  rw [← hk]

/-- Concrete environment for witnesses. -/
def env0 : Env := { w1 := wLive, w2 := wLive, now := 5 }

/-- A machine sitting in `Running` with `ctx1`. -/
def mRun : ProgramFsm :=
  { app_context := ctx1, states := { enter_time := none, skip_backoff_delay := false },
    current_state_key := ProgramState.Running, first_update := false }

/-- Witness for C8 at a concrete running machine. -/
theorem c8_witness :
    Machine.react programStates env0 ProgramEvent.Start mRun =
      some ((mRun, []), Except.ok (some "Already running")) :=
  c8_start_on_running_is_noop env0 mRun rfl rfl

/-- **C10.** Delivering `Start` to a `ProgramFsm` in `Stopping` (resp.
`Exiting`) returns `Err("Cannot start while stopping")` (resp. `"Cannot start
while exiting"`) and changes nothing at all: state tag, `num_restarts`,
`should_restart`, `sigterm_time` and all child handles are untouched. -/
theorem c10_start_rejected_while_stopping_or_exiting (env : Env) (m : ProgramFsm)
    (hf : m.first_update = false) :
    (m.current_state_key = ProgramState.Stopping →
      Machine.react programStates env ProgramEvent.Start m =
        some ((m, []), Except.error "Cannot start while stopping")) ∧
    (m.current_state_key = ProgramState.Exiting →
      Machine.react programStates env ProgramEvent.Start m =
        some ((m, []), Except.error "Cannot start while exiting")) := by
  constructor <;> intro hk <;>
  · unfold Machine.react Machine.maybe_enter_on_first_update
    rw [hf]
    simp only [Bool.false_eq_true, if_false, hk, programStates, Stopping.react,
      Exiting.react]
    unfold Machine.maybe_change_state
    simp [hk]
    rw [← hk]

/-- A machine sitting in `Stopping` with `ctx1`. -/
def mStopping : ProgramFsm :=
  { app_context := ctx1, states := { enter_time := none, skip_backoff_delay := false },
    current_state_key := ProgramState.Stopping, first_update := false }

/-- Witness for C10 at a concrete stopping machine. -/
theorem c10_witness :
    Machine.react programStates env0 ProgramEvent.Start mStopping =
      some ((mStopping, []), Except.error "Cannot start while stopping") :=
  (c10_start_rejected_while_stopping_or_exiting env0 mStopping rfl).1 rfl

/-- `Stopping::react` never requests a transition. -/
theorem stopping_react_keeps_key (env : Env) (e : ProgramEvent) (k : ProgramState)
    (s : Backoff) (c : ProgramContext) (k2 : ProgramState) (s2 : Backoff)
    (c2 : ProgramContext) (res : MachineResult)
    (h : Stopping.react env e k s c = some ((k2, s2, c2), res)) : k2 = k := by
  cases e <;> simp [Stopping.react] at h <;> exact h.1.1.symm

/-- `Exiting::react` never requests a transition. -/
theorem exiting_react_keeps_key (env : Env) (e : ProgramEvent) (k : ProgramState)
    (s : Backoff) (c : ProgramContext) (k2 : ProgramState) (s2 : Backoff)
    (c2 : ProgramContext) (res : MachineResult)
    (h : Exiting.react env e k s c = some ((k2, s2, c2), res)) : k2 = k := by
  cases e <;> simp [Exiting.react] at h <;> exact h.1.1.symm

/-- **C7.** Whenever a `ProgramFsm` leaves `Stopping` or `Exiting` (which only
an `update` tick can cause — `react` never changes the tag in these states),
`should_restart` is false once the exit hook has run, and stays false through
the target state's enter hook, whatever Start/Stop/Restart events were
delivered while in that state. -/
theorem c7_should_restart_false_after_leaving (env : Env) (m m2 : ProgramFsm)
    (hs : List (HookEv ProgramState))
    (hk : m.current_state_key = ProgramState.Stopping ∨
          m.current_state_key = ProgramState.Exiting) :
    (Machine.update programStates env m = some (m2, hs) →
      m2.current_state_key ≠ m.current_state_key →
      m2.app_context.should_restart = false) ∧
    (∀ e res, Machine.react programStates env e m = some ((m2, hs), res) →
      m2.current_state_key = m.current_state_key) := by
  constructor
  · intro hup hne
    obtain ⟨m1, h1, k2, s2, c2, h2, hme, hcb, hmc, -⟩ := machine_update_inv hup
    obtain ⟨hkey1, -, -, -⟩ := maybe_enter_inv hme
    obtain ⟨hkey3, -, hsame, hchange⟩ := maybe_change_inv hmc
    by_cases hk2 : k2 = m1.current_state_key
    · obtain ⟨rfl, -⟩ := hsame hk2
      exact absurd (hkey3.trans (hk2.trans hkey1)) hne
    · obtain ⟨s1, c1, s2b, c2b, hx, he, rfl, -⟩ := hchange hk2
      obtain ⟨-, -, -, hsr, -⟩ := exit_fields m1.current_state_key env s2 c2 s1 c1 hx
      obtain ⟨-, hpres, -, -, -, -⟩ := enter_fields k2 env s1 c1 s2b c2b he
      have : c1.should_restart = false := hsr (by rw [hkey1]; exact hk)
      simp [hpres, this]
  · intro e res hre
    obtain ⟨m1, h1, k2, s2, c2, h2, hme, hcb, hmc, -⟩ := machine_react_inv hre
    obtain ⟨hkey1, -, -, -⟩ := maybe_enter_inv hme
    obtain ⟨hkey3, -, -, -⟩ := maybe_change_inv hmc
    have hk2 : k2 = m1.current_state_key := by
      rcases hk with hk | hk
      · rw [hkey1, hk] at hcb
        simp only [programStates] at hcb
        exact (stopping_react_keeps_key _ _ _ _ _ _ _ _ _ hcb).trans (hkey1.trans hk).symm
      · rw [hkey1, hk] at hcb
        simp only [programStates] at hcb
        exact (exiting_react_keeps_key _ _ _ _ _ _ _ _ _ hcb).trans (hkey1.trans hk).symm
    rw [hkey3, hk2, hkey1]

/-- A `Stopping` machine whose children are all gone and which was asked to
restart; used as the C7 witness scenario. -/
def mStopRestart : ProgramFsm :=
  { app_context := { ProgramContext.new "prog" cfg0 with should_restart := true },
    states := { enter_time := none, skip_backoff_delay := false },
    current_state_key := ProgramState.Stopping, first_update := false }

/-- The machine `mStopRestart` becomes after one tick: out of `Stopping` into
`Starting`, with a fully reset context. -/
def mAfterStop : ProgramFsm :=
  { app_context := ProgramContext.new "prog" cfg0
    states := { enter_time := none, skip_backoff_delay := false }
    current_state_key := ProgramState.Starting
    first_update := false }

/-- Witness for C7: a tick moves `mStopRestart` out of `Stopping` (to
`Starting`, since `should_restart` was set) and the flag is cleared. -/
theorem c7_witness : mAfterStop.app_context.should_restart = false :=
  (c7_should_restart_false_after_leaving env0 mStopRestart mAfterStop
      [HookEv.exit ProgramState.Stopping, HookEv.enter ProgramState.Starting]
      (Or.inl rfl)).1 (by decide) (by decide)

/-- Shared shape of the hook trace of one `update`/`react` call. -/
theorem machine_hook_shape {E K S C Ev : Type} [DecidableEq K]
    {sdefs : K → FsmState E K S C Ev} {env : E} {m m1 m2 : Machine K S C}
    {h1 h2 : List (HookEv K)} {k2 : K} {s2 : S} {c2 : C}
    (hme : Machine.maybe_enter_on_first_update sdefs env m = some (m1, h1))
    (hmc : Machine.maybe_change_state sdefs env m1.current_state_key
      { m1 with current_state_key := k2, states := s2, app_context := c2 } =
        some (m2, h2)) :
    m2.first_update = false ∧
    h1 ++ h2 =
      (if m.first_update then [HookEv.enter m.current_state_key] else []) ++
      (if m2.current_state_key = m.current_state_key then []
       else [HookEv.exit m.current_state_key, HookEv.enter m2.current_state_key]) := by
  obtain ⟨hk1, hf1, hno, hyes⟩ := maybe_enter_inv hme
  obtain ⟨hk3, hf3, hsame, hchange⟩ := maybe_change_inv hmc
  have hk2eq : m2.current_state_key = k2 := hk3
  have hf2 : m2.first_update = false := by rw [hf3]; exact hf1
  refine ⟨hf2, ?_⟩
  have h1eq : h1 = (if m.first_update then [HookEv.enter m.current_state_key] else []) := by
    by_cases hf : m.first_update
    · obtain ⟨s, c, -, -, rfl⟩ := hyes hf
      simp [hf]
    · obtain ⟨-, rfl⟩ := hno (by simpa using hf)
      simp [hf]
  by_cases hkk : k2 = m1.current_state_key
  · obtain ⟨rfl, rfl⟩ := hsame (by simpa using hkk)
    simp [h1eq, hkk, hk1]
  · obtain ⟨s1, c1, s2b, c2b, -, -, rfl, rfl⟩ := hchange (by simpa using hkk)
    have hkk2 : ¬(k2 = m.current_state_key) := by
      rw [← hk1]
      exact hkk
    simp [h1eq, hkk2, hk1]

/-- **C9.** For every `Machine` call (`update` or `react`): the old state's
exit hook and the new state's enter hook fire exactly when the state key after
the callback differs from the key before it (so a `transition` request
targeting the current key fires nothing), and the initial state's enter hook
fires exactly once, at the start of the first call — afterwards
`first_update` is false, so it never fires again. -/
theorem c9_hooks_fire_iff_key_changes {E K S C Ev : Type} [DecidableEq K]
    (sdefs : K → FsmState E K S C Ev) (env : E) (m m2 : Machine K S C)
    (hs : List (HookEv K)) :
    (Machine.update sdefs env m = some (m2, hs) →
      m2.first_update = false ∧
      hs = (if m.first_update then [HookEv.enter m.current_state_key] else []) ++
        (if m2.current_state_key = m.current_state_key then []
         else [HookEv.exit m.current_state_key, HookEv.enter m2.current_state_key])) ∧
    (∀ (e : Ev) (res : MachineResult),
      Machine.react sdefs env e m = some ((m2, hs), res) →
      m2.first_update = false ∧
      hs = (if m.first_update then [HookEv.enter m.current_state_key] else []) ++
        (if m2.current_state_key = m.current_state_key then []
         else [HookEv.exit m.current_state_key, HookEv.enter m2.current_state_key])) := by
  constructor
  · intro h
    obtain ⟨m1, h1, k2, s2, c2, h2, hme, -, hmc, rfl⟩ := machine_update_inv h
    exact machine_hook_shape hme hmc
  · intro e res h
    obtain ⟨m1, h1, k2, s2, c2, h2, hme, -, hmc, rfl⟩ := machine_react_inv h
    exact machine_hook_shape hme hmc

/-- A fresh FSM for `cfg0` (autostart, so it begins in `Starting` with the
first-update flag set). -/
def mFresh : ProgramFsm := new_program_fsm "prog" cfg0

/-- Witness for C9: the very first tick of a fresh machine fires the initial
`Starting` enter hook once, then (the start-wait gate passes at once, since
`start_wait_secs = 0`) the `Starting` to `Running` change hooks. -/
theorem c9_witness :
    (Machine.update programStates env0 mFresh).isSome = true ∧
    ((Machine.update programStates env0 mFresh).getD (mFresh, [])).2 =
      [HookEv.enter ProgramState.Starting, HookEv.exit ProgramState.Starting,
       HookEv.enter ProgramState.Running] := by
  have h := (c9_hooks_fire_iff_key_changes programStates env0 mFresh
    ((Machine.update programStates env0 mFresh).getD (mFresh, [])).1
    ((Machine.update programStates env0 mFresh).getD (mFresh, [])).2).1
    (by decide)
  exact ⟨by decide, by rw [h.2]; decide⟩

/-- `transition_to_backoff_or_exiting` never selects `Running`. -/
theorem t2boe_ne_running (c : ProgramContext) (w : World) :
    transition_to_backoff_or_exiting c w ≠ ProgramState.Running := by
  unfold transition_to_backoff_or_exiting transition_to_exited_or_exiting
  split
  · simp
  · split <;> simp

/-- Inversion of `stage_seq`. -/
theorem stage_seq_inv {x : Option (Except SFinal ProgramContext × STrace)}
    {f : ProgramContext → Option (Except SFinal ProgramContext × STrace)}
    {r : Except SFinal ProgramContext} {tr : STrace}
    (h : Starting.stage_seq x f = some (r, tr)) :
    (∃ fin, x = some (Except.error fin, tr) ∧ r = Except.error fin) ∨
    (∃ c trx r2 tr2, x = some (Except.ok c, trx) ∧ f c = some (r2, tr2) ∧
      r = r2 ∧ tr = trx ++ tr2) := by
  unfold Starting.stage_seq at h
  cases hx : x with
  | none => rw [hx] at h; exact Option.noConfusion h
  | some p =>
      obtain ⟨e, trx⟩ := p
      cases e with
      | error fin =>
          rw [hx] at h
          dsimp only at h
          simp only [Option.some.injEq, Prod.mk.injEq] at h
          obtain ⟨rfl, rfl⟩ := h
          exact Or.inl ⟨fin, rfl, rfl⟩
      | ok cc =>
          rw [hx] at h
          dsimp only at h
          cases hf : f cc with
          | none => rw [hf] at h; exact Option.noConfusion h
          | some q =>
              obtain ⟨r2, tr2⟩ := q
              rw [hf] at h
              dsimp only at h
              simp only [Option.some.injEq, Prod.mk.injEq] at h
              obtain ⟨rfl, rfl⟩ := h
              refine Or.inr ⟨cc, trx, r2, tr2, rfl, ?_, rfl, rfl⟩
              first
              | exact hf
              | rfl

/-- Characterization of the logger pre-command stage. -/
theorem stage_logger_pre_command_char (w : World) (now : Nat) (k : ProgramState)
    (s : Backoff) (c : ProgramContext) (r : Except SFinal ProgramContext)
    (tr : STrace)
    (h : Starting.stage_logger_pre_command w now k s c = some (r, tr)) :
    (tr.map Prod.fst).Sublist [SAct.checkLoggerPre] ∧
    (∀ c2, r = Except.ok c2 → c2.logger = c.logger ∧ c2.program = c.program) ∧
    (∀ fin, r = Except.error fin → k ≠ ProgramState.Running →
      fin.1 ≠ ProgramState.Running) := by
  unfold Starting.stage_logger_pre_command at h
  match hpc : c.logger_pre_command with
  | none =>
      rw [hpc] at h
      dsimp only at h
      simp only [Option.some.injEq, Prod.mk.injEq] at h
      obtain ⟨rfl, rfl⟩ := h
      exact ⟨by simp, fun c2 hc2 => by cases hc2; exact ⟨rfl, rfl⟩,
        fun fin hfin => Except.noConfusion hfin⟩
  | some lpc =>
      rw [hpc] at h
      dsimp only at h
      match hck : Starting.check_pre_command lpc w.logger_pre_command_probe
          w.logger_pre_command_spawn_ok now with
      | none => rw [hck] at h; exact Option.noConfusion h
      | some (st, lpc2) =>
          rw [hck] at h
          dsimp only at h
          cases st <;>
            simp only [Option.some.injEq, Prod.mk.injEq] at h <;>
            obtain ⟨rfl, rfl⟩ := h
          · exact ⟨by simp, fun c2 hc2 => Except.noConfusion hc2,
              fun fin hfin hk => by cases hfin; simpa using hk⟩
          · exact ⟨by simp, fun c2 hc2 => by cases hc2; exact ⟨rfl, rfl⟩,
              fun fin hfin => Except.noConfusion hfin⟩
          · exact ⟨by simp, fun c2 hc2 => Except.noConfusion hc2,
              fun fin hfin hk => by cases hfin; simpa using t2boe_ne_running _ w⟩

/-- Characterization of the primary pre-command stage. -/
theorem stage_pre_command_char (w : World) (now : Nat) (k : ProgramState)
    (s : Backoff) (c : ProgramContext) (r : Except SFinal ProgramContext)
    (tr : STrace)
    (h : Starting.stage_pre_command w now k s c = some (r, tr)) :
    (tr.map Prod.fst).Sublist [SAct.checkPre] ∧
    (∀ c2, r = Except.ok c2 → c2.logger = c.logger ∧ c2.program = c.program) ∧
    (∀ fin, r = Except.error fin → k ≠ ProgramState.Running →
      fin.1 ≠ ProgramState.Running) := by
  unfold Starting.stage_pre_command at h
  match hpc : c.pre_command with
  | none =>
      rw [hpc] at h
      dsimp only at h
      simp only [Option.some.injEq, Prod.mk.injEq] at h
      obtain ⟨rfl, rfl⟩ := h
      exact ⟨by simp, fun c2 hc2 => by cases hc2; exact ⟨rfl, rfl⟩,
        fun fin hfin => Except.noConfusion hfin⟩
  | some pc =>
      rw [hpc] at h
      dsimp only at h
      match hck : Starting.check_pre_command pc w.pre_command_probe
          w.pre_command_spawn_ok now with
      | none => rw [hck] at h; exact Option.noConfusion h
      | some (st, pc2) =>
          rw [hck] at h
          dsimp only at h
          cases st <;>
            simp only [Option.some.injEq, Prod.mk.injEq] at h <;>
            obtain ⟨rfl, rfl⟩ := h
          · exact ⟨by simp, fun c2 hc2 => Except.noConfusion hc2,
              fun fin hfin hk => by cases hfin; simpa using hk⟩
          · exact ⟨by simp, fun c2 hc2 => by cases hc2; exact ⟨rfl, rfl⟩,
              fun fin hfin => Except.noConfusion hfin⟩
          · exact ⟨by simp, fun c2 hc2 => Except.noConfusion hc2,
              fun fin hfin hk => by cases hfin; simpa using t2boe_ne_running _ w⟩

/-- Characterization of the spawn stage when a logger is configured. -/
theorem stage_spawn_char (w : World) (now : Nat) (k : ProgramState)
    (s : Backoff) (c : ProgramContext) (lg : SubprogramContext)
    (hlg : c.logger = some lg) (r : Except SFinal ProgramContext) (tr : STrace)
    (h : Starting.stage_spawn w now k s c = some (r, tr)) :
    (tr.map Prod.fst).Sublist [SAct.spawnLogger true, SAct.spawnPrimary true] ∧
    (∀ c2, r = Except.ok c2 → ∃ lg2, c2.logger = some lg2) ∧
    (∀ fin, r = Except.error fin → k ≠ ProgramState.Running →
      fin.1 ≠ ProgramState.Running) := by
  have hsp : ∀ (lg3 : SubprogramContext) (c3 : ProgramContext) (r3 tr3),
      c3.logger = some lg3 →
      Starting.spawn_primary_into_logger w now k s lg3 c3 = some (r3, tr3) →
      (tr3.map Prod.fst).Sublist [SAct.spawnPrimary true] ∧
      (∀ c2, r3 = Except.ok c2 → ∃ lg2, c2.logger = some lg2) ∧
      (∀ fin, r3 = Except.error fin → k ≠ ProgramState.Running →
        fin.1 ≠ ProgramState.Running) := by
    intro lg3 c3 r3 tr3 hlg3 h3
    unfold Starting.spawn_primary_into_logger at h3
    by_cases hst : c3.program.start_time.isNone
    · rw [if_pos hst] at h3
      by_cases hcp : !lg3.program.child_proc
      · rw [if_pos hcp] at h3; exact Option.noConfusion h3
      · rw [if_neg hcp] at h3
        cases hstart : c3.program.program.start false w.program_probe
            w.program_spawn_ok with
        | none => rw [hstart] at h3; exact Option.noConfusion h3
        | some q =>
            obtain ⟨ok, p2⟩ := q
            rw [hstart] at h3
            dsimp only at h3
            cases ok <;>
              simp only [Bool.false_eq_true, if_false, if_true,
                Option.some.injEq, Prod.mk.injEq] at h3 <;>
              obtain ⟨rfl, rfl⟩ := h3
            · exact ⟨by simp, fun c2 hc2 => Except.noConfusion hc2,
                fun fin hfin hk => by cases hfin; simpa using t2boe_ne_running _ w⟩
            · exact ⟨by simp, fun c2 hc2 => by cases hc2; exact ⟨lg3, hlg3⟩,
                fun fin hfin => Except.noConfusion hfin⟩
    · rw [if_neg hst] at h3
      simp only [Option.some.injEq, Prod.mk.injEq] at h3
      obtain ⟨rfl, rfl⟩ := h3
      exact ⟨by simp, fun c2 hc2 => by cases hc2; exact ⟨lg3, hlg3⟩,
        fun fin hfin => Except.noConfusion hfin⟩
  unfold Starting.stage_spawn at h
  rw [hlg] at h
  dsimp only at h
  by_cases hst : lg.start_time.isNone
  · rw [if_pos hst] at h
    cases hstart : lg.program.start true w.logger_probe w.logger_spawn_ok with
    | none => rw [hstart] at h; exact Option.noConfusion h
    | some q =>
        obtain ⟨ok, p2⟩ := q
        rw [hstart] at h
        dsimp only at h
        cases ok with
        | false =>
            simp only [Bool.false_eq_true, if_false, Option.some.injEq,
              Prod.mk.injEq] at h
            obtain ⟨rfl, rfl⟩ := h
            exact ⟨by simp, fun c2 hc2 => Except.noConfusion hc2,
              fun fin hfin hk => by cases hfin; simpa using t2boe_ne_running _ w⟩
        | true =>
            simp only [if_true] at h
            split at h
            · exact Option.noConfusion h
            · rename_i r3 tr3 heq
              simp only [Option.some.injEq, Prod.mk.injEq] at h
              obtain ⟨rfl, rfl⟩ := h
              obtain ⟨htr3, hok3, herr3⟩ := hsp _ _ _ _ rfl heq
              refine ⟨?_, hok3, herr3⟩
              simpa using List.Sublist.cons₂ (SAct.spawnLogger true) htr3
  · rw [if_neg hst] at h
    obtain ⟨htr3, hok3, herr3⟩ := hsp lg c r tr hlg h
    exact ⟨htr3.trans (by simp), hok3, herr3⟩

/-- Characterization of the primary start-wait stage. -/
theorem stage_check_primary_char (w : World) (now : Nat) (k : ProgramState)
    (s : Backoff) (c : ProgramContext) (r : Except SFinal ProgramContext)
    (tr : STrace)
    (h : Starting.stage_check_primary w now k s c = some (r, tr)) :
    (∀ c2, r = Except.ok c2 → c2 = c ∧ tr = [(SAct.checkPrimary, true)]) ∧
    (∀ fin, r = Except.error fin → tr = [(SAct.checkPrimary, false)] ∧
      (k ≠ ProgramState.Running → fin.1 ≠ ProgramState.Running)) := by
  unfold Starting.stage_check_primary at h
  cases hck : Starting.check_subprogram c.program w.program_probe now with
  | none => rw [hck] at h; exact Option.noConfusion h
  | some st =>
      rw [hck] at h
      dsimp only at h
      cases st <;>
        simp only [Option.some.injEq, Prod.mk.injEq] at h <;>
        obtain ⟨rfl, rfl⟩ := h
      · exact ⟨fun c2 hc2 => Except.noConfusion hc2,
          fun fin hfin => by cases hfin; exact ⟨rfl, fun hk => by simpa using hk⟩⟩
      · exact ⟨fun c2 hc2 => by cases hc2; exact ⟨rfl, rfl⟩,
          fun fin hfin => Except.noConfusion hfin⟩
      · refine ⟨fun c2 hc2 => Except.noConfusion hc2, fun fin hfin => ?_⟩
        cases hfin
        exact ⟨rfl, fun hk => by simpa using t2boe_ne_running _ w⟩

/-- Characterization of the logger start-wait stage (logger configured). -/
theorem stage_check_logger_char (w : World) (now : Nat) (k : ProgramState)
    (s : Backoff) (c : ProgramContext) (lg : SubprogramContext)
    (hlg : c.logger = some lg) (r : Except SFinal ProgramContext) (tr : STrace)
    (h : Starting.stage_check_logger w now k s c = some (r, tr)) :
    (∀ c2, r = Except.ok c2 → c2 = c ∧ tr = [(SAct.checkLogger, true)]) ∧
    (∀ fin, r = Except.error fin → tr = [(SAct.checkLogger, false)] ∧
      (k ≠ ProgramState.Running → fin.1 ≠ ProgramState.Running)) := by
  unfold Starting.stage_check_logger at h
  rw [hlg] at h
  dsimp only at h
  cases hck : Starting.check_subprogram lg w.logger_probe now with
  | none => rw [hck] at h; exact Option.noConfusion h
  | some st =>
      rw [hck] at h
      dsimp only at h
      cases st <;>
        simp only [Option.some.injEq, Prod.mk.injEq] at h <;>
        obtain ⟨rfl, rfl⟩ := h
      · exact ⟨fun c2 hc2 => Except.noConfusion hc2,
          fun fin hfin => by cases hfin; exact ⟨rfl, fun hk => by simpa using hk⟩⟩
      · exact ⟨fun c2 hc2 => by cases hc2; exact ⟨rfl, rfl⟩,
          fun fin hfin => Except.noConfusion hfin⟩
      · refine ⟨fun c2 hc2 => Except.noConfusion hc2, fun fin hfin => ?_⟩
        cases hfin
        exact ⟨rfl, fun hk => by simpa using t2boe_ne_running _ w⟩

/-- A trace whose tags form a sublist of `seg` contains no action outside
`seg`. -/
theorem not_mem_trace_of_tags {tr : STrace} {seg : List SAct}
    (h : (tr.map Prod.fst).Sublist seg) {a : SAct} (ha : a ∉ seg) (b : Bool) :
    (a, b) ∉ tr := fun hm => ha (h.subset (List.mem_map_of_mem Prod.fst hm))

/-- Facts about the first two stages of `Starting::update` combined. -/
theorem chain2_char (w : World) (now : Nat) (s : Backoff) (c : ProgramContext)
    (r : Except SFinal ProgramContext) (tr : STrace)
    (h : Starting.stage_seq
          (Starting.stage_logger_pre_command w now ProgramState.Starting s c)
          (Starting.stage_pre_command w now ProgramState.Starting s) =
        some (r, tr)) :
    (tr.map Prod.fst).Sublist [SAct.checkLoggerPre, SAct.checkPre] ∧
    (∀ c2, r = Except.ok c2 → c2.logger = c.logger) ∧
    (∀ fin, r = Except.error fin → fin.1 ≠ ProgramState.Running) := by
  have hkne : (ProgramState.Starting : ProgramState) ≠ ProgramState.Running := by simp
  rcases stage_seq_inv h with ⟨finE, hx, rfl⟩ | ⟨c1, trx, r2, tr2, hx, hf2, rfl, rfl⟩
  · obtain ⟨ht1, hok1, herr1⟩ := stage_logger_pre_command_char _ _ _ _ _ _ _ hx
    refine ⟨ht1.trans (by simp), fun c2 hc2 => Except.noConfusion hc2,
      fun fin hfin => ?_⟩
    simp only [Except.error.injEq] at hfin
    subst hfin
    exact herr1 _ rfl hkne
  · obtain ⟨ht1, hok1, herr1⟩ := stage_logger_pre_command_char _ _ _ _ _ _ _ hx
    obtain ⟨ht2, hok2, herr2⟩ := stage_pre_command_char _ _ _ _ _ _ _ hf2
    refine ⟨by simpa [List.map_append] using ht1.append ht2, fun c2 hc2 => ?_,
      fun fin hfin => herr2 fin hfin hkne⟩
    exact ((hok2 c2 hc2).1).trans (hok1 c1 rfl).1

/-- Facts about the first three stages of `Starting::update` combined (logger
configured). -/
theorem chain3_char (w : World) (now : Nat) (s : Backoff) (c : ProgramContext)
    (lg : SubprogramContext) (hlg : c.logger = some lg)
    (r : Except SFinal ProgramContext) (tr : STrace)
    (h : Starting.stage_seq (Starting.stage_seq
          (Starting.stage_logger_pre_command w now ProgramState.Starting s c)
          (Starting.stage_pre_command w now ProgramState.Starting s))
          (Starting.stage_spawn w now ProgramState.Starting s) = some (r, tr)) :
    (tr.map Prod.fst).Sublist [SAct.checkLoggerPre, SAct.checkPre,
      SAct.spawnLogger true, SAct.spawnPrimary true] ∧
    (∀ c3, r = Except.ok c3 → ∃ lg2, c3.logger = some lg2) ∧
    (∀ fin, r = Except.error fin → fin.1 ≠ ProgramState.Running) := by
  have hkne : (ProgramState.Starting : ProgramState) ≠ ProgramState.Running := by simp
  rcases stage_seq_inv h with ⟨finE, hx, rfl⟩ | ⟨c2, trx, r3, tr3, hx, hf3, rfl, rfl⟩
  · obtain ⟨ht12, hok12, herr12⟩ := chain2_char _ _ _ _ _ _ hx
    refine ⟨ht12.trans (by simp), fun c3 hc3 => Except.noConfusion hc3,
      fun fin hfin => ?_⟩
    simp only [Except.error.injEq] at hfin
    subst hfin
    exact herr12 _ rfl
  · obtain ⟨ht12, hok12, herr12⟩ := chain2_char _ _ _ _ _ _ hx
    have hlg2 : c2.logger = some lg := (hok12 c2 rfl).trans hlg
    obtain ⟨ht3, hok3, herr3⟩ := stage_spawn_char _ _ _ _ _ _ hlg2 _ _ hf3
    refine ⟨by simpa [List.map_append, List.append_assoc] using ht12.append ht3,
      fun c3 hc3 => hok3 c3 hc3, fun fin hfin => herr3 fin hfin hkne⟩

/-- Facts about the first four stages of `Starting::update` combined (logger
configured). -/
theorem chain4_char (w : World) (now : Nat) (s : Backoff) (c : ProgramContext)
    (lg : SubprogramContext) (hlg : c.logger = some lg)
    (r : Except SFinal ProgramContext) (tr : STrace)
    (h : Starting.stage_seq (Starting.stage_seq (Starting.stage_seq
          (Starting.stage_logger_pre_command w now ProgramState.Starting s c)
          (Starting.stage_pre_command w now ProgramState.Starting s))
          (Starting.stage_spawn w now ProgramState.Starting s))
          (Starting.stage_check_primary w now ProgramState.Starting s) =
        some (r, tr)) :
    (tr.map Prod.fst).Sublist [SAct.checkLoggerPre, SAct.checkPre,
      SAct.spawnLogger true, SAct.spawnPrimary true, SAct.checkPrimary] ∧
    (∀ c4, r = Except.ok c4 → (∃ lg2, c4.logger = some lg2) ∧
      (SAct.checkPrimary, true) ∈ tr) ∧
    (∀ fin, r = Except.error fin → fin.1 ≠ ProgramState.Running) := by
  have hkne : (ProgramState.Starting : ProgramState) ≠ ProgramState.Running := by simp
  rcases stage_seq_inv h with ⟨finE, hx, rfl⟩ | ⟨c3, trx, r4, tr4, hx, hf4, rfl, rfl⟩
  · obtain ⟨ht13, hok13, herr13⟩ := chain3_char _ _ _ _ _ hlg _ _ hx
    refine ⟨ht13.trans (by simp), fun c4 hc4 => Except.noConfusion hc4,
      fun fin hfin => ?_⟩
    simp only [Except.error.injEq] at hfin
    subst hfin
    exact herr13 _ rfl
  · obtain ⟨ht13, hok13, herr13⟩ := chain3_char _ _ _ _ _ hlg _ _ hx
    obtain ⟨hok4, herr4⟩ := stage_check_primary_char _ _ _ _ _ _ _ hf4
    constructor
    · rcases r with fin4 | c4
      · obtain ⟨rfl, -⟩ := herr4 fin4 rfl
        simpa [List.map_append, List.append_assoc] using
          ht13.append (by simp : ([(SAct.checkPrimary, false)].map Prod.fst).Sublist
            [SAct.checkPrimary])
      · obtain ⟨-, rfl⟩ := hok4 c4 rfl
        simpa [List.map_append, List.append_assoc] using
          ht13.append (by simp : ([(SAct.checkPrimary, true)].map Prod.fst).Sublist
            [SAct.checkPrimary])
    constructor
    · intro c4 hc4
      obtain ⟨rfl, rfl⟩ := hok4 c4 hc4
      exact ⟨(hok13 c4 rfl : ∃ lg2, c4.logger = some lg2), by simp⟩
    · intro fin hfin
      exact (herr4 fin hfin).2 hkne

/-- The canonical per-tick action order of `Starting::update` with a logger. -/
def canonicalStartingOrder : List SAct :=
  [SAct.checkLoggerPre, SAct.checkPre, SAct.spawnLogger true,
   SAct.spawnPrimary true, SAct.checkPrimary, SAct.checkLogger]

/-- **C6.** On every `Starting` tick with a logger configured, the performed
actions follow the fixed order: logger pre-command check, primary pre-command
check, logger spawn (stdin piped), primary spawn (wired into the logger),
primary start-wait check strictly before logger start-wait check; and the tick
requests the `Running` transition exactly when both the primary and the logger
passed their start-wait gates. -/
theorem c6_starting_order_and_running_gate (env : Env) (s : Backoff)
    (c : ProgramContext) (lg : SubprogramContext) (hlg : c.logger = some lg)
    (fin : SFinal) (tr : STrace)
    (h : Starting.update_traced env ProgramState.Starting s c = some (fin, tr)) :
    (tr.map Prod.fst).Sublist canonicalStartingOrder ∧
    (fin.1 = ProgramState.Running ↔
      ((SAct.checkPrimary, true) ∈ tr ∧ (SAct.checkLogger, true) ∈ tr)) := by
  unfold Starting.update_traced at h
  dsimp only at h
  split at h
  · exact Option.noConfusion h
  · rename_i fin0 tr0 heq
    simp only [Option.some.injEq, Prod.mk.injEq] at h
    obtain ⟨rfl, rfl⟩ := h
    rcases stage_seq_inv heq with ⟨finE, hx4, hrE⟩ |
      ⟨c4, trx, r5, tr5, hx4, hf5, hr5, rfl⟩
    · simp only [Except.error.injEq] at hrE
      subst hrE
      obtain ⟨ht14, -, herr14⟩ := chain4_char _ _ _ _ _ hlg _ _ hx4
      have hne := herr14 _ rfl
      refine ⟨ht14.trans (by simp [canonicalStartingOrder]), ?_⟩
      refine iff_of_false hne (fun hc => ?_)
      exact not_mem_trace_of_tags ht14 (by simp) true hc.2
    · obtain ⟨ht14, hok14, -⟩ := chain4_char _ _ _ _ _ hlg _ _ hx4
      obtain ⟨⟨lg2, hlg2⟩, hmem4⟩ := hok14 c4 rfl
      obtain ⟨hok5, herr5⟩ := stage_check_logger_char _ _ _ _ _ _ hlg2 _ _ hf5
      obtain ⟨rfl, hnr5⟩ := herr5 fin0 hr5.symm
      refine ⟨?_, ?_⟩
      · simpa [canonicalStartingOrder, List.map_append, List.append_assoc] using
          ht14.append (by simp : ([(SAct.checkLogger, false)].map Prod.fst).Sublist
            [SAct.checkLogger])
      · refine iff_of_false (hnr5 (by simp)) (fun hc => ?_)
        rcases List.mem_append.mp hc.2 with hin | hin
        · exact not_mem_trace_of_tags ht14 (by simp) true hin
        · simpa using hin
  · rename_i c5 tr0 heq
    simp only [Option.some.injEq, Prod.mk.injEq] at h
    obtain ⟨rfl, rfl⟩ := h
    rcases stage_seq_inv heq with ⟨finE, hx4, hrE⟩ |
      ⟨c4, trx, r5, tr5, hx4, hf5, hr5, rfl⟩
    · exact Except.noConfusion hrE
    · obtain ⟨ht14, hok14, -⟩ := chain4_char _ _ _ _ _ hlg _ _ hx4
      obtain ⟨⟨lg2, hlg2⟩, hmem4⟩ := hok14 c4 rfl
      obtain ⟨hok5, herr5⟩ := stage_check_logger_char _ _ _ _ _ _ hlg2 _ _ hf5
      obtain ⟨rfl, rfl⟩ := hok5 c5 hr5.symm
      refine ⟨?_, ?_⟩
      · simpa [canonicalStartingOrder, List.map_append, List.append_assoc] using
          ht14.append (by simp : ([(SAct.checkLogger, true)].map Prod.fst).Sublist
            [SAct.checkLogger])
      · exact iff_of_true rfl ⟨List.mem_append.mpr (Or.inl hmem4), by simp⟩

/-- A config with a side-car logger and no pre-commands. -/
def cfgL : RenderedProgramConfig :=
  { program :=
      { command := "/bin/sleep", args := some ["3600"], pre_command := none,
        start_wait_secs := 0, autostart := true, autorestart := true,
        backoff_delay_secs := 1, num_restart_attempts := 2, sigkill_delay_secs := 10 }
    logger := some
      { command := "/bin/cat", args := none, pre_command := none,
        start_wait_secs := 0 } }

/-- The default-constructed `Backoff` state data. -/
def bk0 : Backoff := { enter_time := none, skip_backoff_delay := false }

/-- Fresh context for `cfgL`. -/
def ctxL : ProgramContext := ProgramContext.new "prog" cfgL

/-- The logger slot of `ctxL`. -/
def lgL : SubprogramContext :=
  { program := Program.new (logger_name "prog") "/bin/cat" none,
    start_wait := 0, start_time := none }

/-- The traced outcome of one `Starting` tick on `ctxL` in `env0`. -/
def resL : SFinal × STrace :=
  (Starting.update_traced env0 ProgramState.Starting bk0 ctxL).getD
    ((ProgramState.Stopped, bk0, ctxL), [])

/-- Witness for C6 on the all-good concrete tick: logger and primary spawn,
both gates pass, and the tick requests `Running`. -/
theorem c6_witness :
    (resL.2.map Prod.fst).Sublist canonicalStartingOrder ∧
    (resL.1.1 = ProgramState.Running ↔
      ((SAct.checkPrimary, true) ∈ resL.2 ∧ (SAct.checkLogger, true) ∈ resL.2)) :=
  c6_starting_order_and_running_gate env0 bk0 ctxL lgL (by decide) resL.1 resL.2
    (by decide)

/-- Broadcast appends exactly one snapshot to every subscriber's outbox. -/
theorem lookup_broadcast (l : List (Nat × List Snapshot)) (snap : Snapshot)
    (id : Nat) :
    List.lookup id (l.map fun sub => (sub.1, sub.2 ++ [snap])) =
      (List.lookup id l).map (fun box => box ++ [snap]) := by
  induction l with
  | nil => rfl
  | cons p t ih =>
      obtain ⟨a, b⟩ := p
      by_cases hid : id == a
      · simp [List.lookup, hid]
      · simp only [List.map_cons, List.lookup, hid]
        exact ih

/-- Registration finds the fresh, empty outbox. -/
theorem lookup_subscribe_self (l : List (Nat × List Snapshot)) (addr : Nat) :
    List.lookup addr (l.filter (fun p => p.1 != addr) ++ [(addr, [])]) =
      some [] := by
  induction l with
  | nil => simp [List.lookup]
  | cons p t ih =>
      obtain ⟨a, b⟩ := p
      by_cases ha : a = addr
      · subst ha
        simpa using ih
      · have : (a != addr) = true := by simpa using ha
        simp only [List.filter_cons, this, if_true, List.cons_append, List.lookup]
        have : (addr == a) = false := by simpa using Ne.symm ha
        rw [this]
        exact ih

/-- Registration leaves every other subscriber's outbox unchanged. -/
theorem lookup_subscribe_other (l : List (Nat × List Snapshot)) (addr id : Nat)
    (hid : id ≠ addr) :
    List.lookup id (l.filter (fun p => p.1 != addr) ++ [(addr, [])]) =
      List.lookup id l := by
  have h0 : (id == addr) = false := by simpa using hid
  induction l with
  | nil => simp [List.lookup, h0]
  | cons p t ih =>
      obtain ⟨a, b⟩ := p
      by_cases ha : a = addr
      · subst ha
        have : (id == a) = false := by simpa using hid
        simpa [List.lookup, this] using ih
      · have haf : (a != addr) = true := by simpa using ha
        simp only [List.filter_cons, haf, if_true, List.cons_append, List.lookup]
        by_cases hia : id == a
        · rw [hia]
        · rw [Bool.of_not_eq_true hia]
          exact ih

/-- Decidable equality for `Except` results (used to evaluate concrete
daemon steps). -/
instance exceptDecEq {e a : Type} [DecidableEq e] [DecidableEq a] :
    DecidableEq (Except e a) := fun x y =>
  match x, y with
  | .ok v, .ok w =>
      if h : v = w then isTrue (by rw [h]) else isFalse (by simp [h])
  | .error v, .error w =>
      if h : v = w then isTrue (by rw [h]) else isFalse (by simp [h])
  | .ok _, .error _ => isFalse (by simp)
  | .error _, .ok _ => isFalse (by simp)

instance machineResultDecEq : DecidableEq MachineResult := exceptDecEq

instance programEventsResultDecEq : DecidableEq ProgramEventsResult := exceptDecEq

/-- Inversion of one tick-arm firing. -/
theorem tick_inv {envf : String → Env} {d d2 : Daemon}
    (h : tick envf d = some d2) :
    ∃ fsms2, update_program_fsms d.program_fsms envf = some fsms2 ∧
      d2 = broadcast_program_states { d with program_fsms := fsms2 } := by
  unfold tick at h
  cases hu : update_program_fsms d.program_fsms envf with
  | none => rw [hu] at h; exact Option.noConfusion h
  | some fsms2 =>
      rw [hu] at h
      dsimp only at h
      exact ⟨fsms2, rfl, (Option.some.injEq .. ▸ h).symm⟩

/-- Inversion of one event-arm firing. -/
theorem handle_program_event_inv {ev : ProgramEvent} {expr : String}
    {envf : String → Env} {d d2 : Daemon} {reply : ProgramEventsResult}
    (h : handle_program_event ev expr envf d = some (d2, reply)) :
    ∃ fsms2 results,
      react_program_fsms d.program_fsms ev expr envf = some (fsms2, results) ∧
      d2 = broadcast_program_states { d with program_fsms := fsms2 } ∧
      reply = (if results.isEmpty then
          Except.error (Status.not_found
            ("No programs found matching expression: " ++ expr))
        else Except.ok results) := by
  unfold handle_program_event at h
  cases hr : react_program_fsms d.program_fsms ev expr envf with
  | none => rw [hr] at h; exact Option.noConfusion h
  | some q =>
      obtain ⟨fsms2, results⟩ := q
      rw [hr] at h
      dsimp only at h
      simp only [Option.some.injEq, Prod.mk.injEq] at h
      obtain ⟨rfl, rfl⟩ := h
      exact ⟨fsms2, results, rfl, rfl, rfl⟩

/-- **C4 (amended).** On subscription no snapshot is sent: the new subscriber
starts with an empty outbox and nobody else's outbox changes.  Thereafter,
every tick and every processed event appends exactly one snapshot of all
program states to every subscriber's outbox. -/
theorem c4_snapshot_on_tick_and_event_only (d : Daemon) :
    (∀ addr : Nat,
      (get_status_subscribe d addr).program_fsms = d.program_fsms ∧
      List.lookup addr (get_status_subscribe d addr).subscribers = some [] ∧
      (∀ id : Nat, id ≠ addr →
        List.lookup id (get_status_subscribe d addr).subscribers =
          List.lookup id d.subscribers)) ∧
    (∀ (envf : String → Env) (d2 : Daemon), tick envf d = some d2 →
      ∀ (id : Nat) (box : List Snapshot),
        List.lookup id d.subscribers = some box →
        List.lookup id d2.subscribers =
          some (box ++ [program_states_of d2.program_fsms])) ∧
    (∀ (ev : ProgramEvent) (expr : String) (envf : String → Env) (d2 : Daemon)
        (reply : ProgramEventsResult),
      handle_program_event ev expr envf d = some (d2, reply) →
      ∀ (id : Nat) (box : List Snapshot),
        List.lookup id d.subscribers = some box →
        List.lookup id d2.subscribers =
          some (box ++ [program_states_of d2.program_fsms])) := by
  refine ⟨fun addr => ⟨rfl, lookup_subscribe_self _ _, fun id hid =>
    lookup_subscribe_other _ _ _ hid⟩, ?_, ?_⟩
  · intro envf d2 h id box hbox
    obtain ⟨fsms2, -, rfl⟩ := tick_inv h
    simp only [broadcast_program_states, program_states_of]
    rw [lookup_broadcast, hbox]
    rfl
  · intro ev expr envf d2 reply h id box hbox
    obtain ⟨fsms2, results, -, rfl, -⟩ := handle_program_event_inv h
    simp only [broadcast_program_states, program_states_of]
    rw [lookup_broadcast, hbox]
    rfl

/-- One-program daemon with no subscribers. -/
def d0 : Daemon :=
  { program_fsms := [new_program_fsm "foo" cfg0], subscribers := [] }

/-- Counterexample to C4 as stated: immediately after a `GetStatus`
subscription, the new subscriber's outbox is empty — the claimed immediate
snapshot of all program states was never sent. -/
theorem c4_counterexample :
    List.lookup 0 (get_status_subscribe d0 0).subscribers = some [] ∧
    some ([] : List Snapshot) ≠ some [program_states_of d0.program_fsms] := by
  exact ⟨by decide, by decide⟩

/-- One-program daemon with one subscriber (id 5, empty outbox). -/
def d5 : Daemon :=
  { program_fsms := [new_program_fsm "foo" cfg0], subscribers := [(5, [])] }

/-- The daemon after one tick of `d5`. -/
def dT : Daemon := (tick (fun _ => env0) d5).getD d5

/-- Witness for C4 (amended) at the concrete daemon `d5`: the tick appends
one snapshot to subscriber 5's outbox. -/
theorem c4_witness :
    List.lookup 5 dT.subscribers =
      some (([] : List Snapshot) ++ [program_states_of dT.program_fsms]) :=
  (c4_snapshot_on_tick_and_event_only d5).2.1 (fun _ => env0) dT (by decide) 5 []
    (by decide)

/-- With no match, the event loop reacts on nobody and returns everything
unchanged, collecting no results. -/
theorem react_program_fsms_no_match (fsms : List ProgramFsm) (ev : ProgramEvent)
    (expr : String) (envf : String → Env)
    (hno : ∀ m ∈ fsms, program_matches expr m.app_context.name = false) :
    react_program_fsms fsms ev expr envf = some (fsms, []) := by
  induction fsms with
  | nil => rfl
  | cons m rest ih =>
      have hm := hno m (by simp)
      have hrest := ih (fun m2 hm2 => hno m2 (by simp [hm2]))
      unfold react_program_fsms
      rw [if_neg (by simp [hm]), hrest]

/-- **C5 (amended).** For an event whose program expression matches no program
name, the reply is the not-found error and no FSM reacts (the FSM list is
returned unchanged) — but, contrary to the claim as stated, a snapshot is
still broadcast to every subscriber after the event is processed. -/
theorem c5_no_match_not_found_but_snapshot_broadcast (d : Daemon)
    (ev : ProgramEvent) (expr : String) (envf : String → Env)
    (hno : ∀ m ∈ d.program_fsms, program_matches expr m.app_context.name = false) :
    handle_program_event ev expr envf d =
      some (broadcast_program_states d,
        Except.error (Status.not_found
          ("No programs found matching expression: " ++ expr))) := by
  unfold handle_program_event
  rw [react_program_fsms_no_match d.program_fsms ev expr envf hno]
  rfl

/-- Counterexample to C5 as stated: after `Restart("missing")` on a daemon
whose only program is `"foo"`, the RPC reply is not-found and no FSM reacted,
yet subscriber 5 did receive a snapshot — the claim's "no snapshot is
broadcast" conjunct is false. -/
theorem c5_counterexample :
    handle_program_event ProgramEvent.Restart "missing" (fun _ => env0) d5 =
      some (broadcast_program_states d5,
        Except.error (Status.not_found
          "No programs found matching expression: missing")) ∧
    List.lookup 5 (broadcast_program_states d5).subscribers =
      some [[("foo", ProgramState.Starting)]] ∧
    some [[("foo", ProgramState.Starting)]] ≠ some ([] : List Snapshot) := by
  exact ⟨by decide, by decide, by decide⟩

/-- Witness for C5 (amended) at a concrete no-match event. -/
theorem c5_witness :
    handle_program_event ProgramEvent.Stop "nope" (fun _ => env0) d5 =
      some (broadcast_program_states d5,
        Except.error (Status.not_found
          ("No programs found matching expression: " ++ "nope"))) :=
  c5_no_match_not_found_but_snapshot_broadcast d5 ProgramEvent.Stop "nope"
    (fun _ => env0) (by decide)

/-- If the decision is `Backoff`, the restart budget was not exhausted. -/
theorem t2boe_backoff_guard (c : ProgramContext) (w : World)
    (h : transition_to_backoff_or_exiting c w = ProgramState.Backoff) :
    c.num_restarts < c.config.num_restart_attempts := by
  by_cases hn : c.num_restarts < c.config.num_restart_attempts
  · exact hn
  · exfalso
    unfold transition_to_backoff_or_exiting transition_to_exited_or_exiting at h
    rw [if_neg (by simp [hn])] at h
    split at h <;> simp_all

/-- The graceful-termination protocol only ever touches `sigterm_time`. -/
theorem sigterm_or_sigkill_preserves (c : ProgramContext) (w : World) (now : Nat) :
    ((c.send_sigterm_or_sigkill_signal_to_all_running_programs w now).1).num_restarts =
        c.num_restarts ∧
    ((c.send_sigterm_or_sigkill_signal_to_all_running_programs w now).1).config =
        c.config ∧
    ((c.send_sigterm_or_sigkill_signal_to_all_running_programs w now).1).should_restart =
        c.should_restart := by
  unfold ProgramContext.send_sigterm_or_sigkill_signal_to_all_running_programs
  cases c.sigterm_time <;> simp <;> split <;> simp

/-- Counter bookkeeping of the logger pre-command stage. -/
theorem stage_logger_pre_command_counters (w : World) (now : Nat)
    (k : ProgramState) (s : Backoff) (c : ProgramContext)
    (r : Except SFinal ProgramContext) (tr : STrace)
    (h : Starting.stage_logger_pre_command w now k s c = some (r, tr)) :
    (∀ c2, r = Except.ok c2 →
      c2.num_restarts = c.num_restarts ∧ c2.config = c.config) ∧
    (∀ fin, r = Except.error fin →
      (fin.2.2.num_restarts = c.num_restarts ∧ fin.2.2.config = c.config) ∧
      (fin.1 = ProgramState.Backoff → fin.1 ≠ k →
        fin.2.2.num_restarts < fin.2.2.config.num_restart_attempts)) := by
  unfold Starting.stage_logger_pre_command at h
  match hpc : c.logger_pre_command with
  | none =>
      rw [hpc] at h
      dsimp only at h
      simp only [Option.some.injEq, Prod.mk.injEq] at h
      obtain ⟨rfl, rfl⟩ := h
      exact ⟨fun c2 hc2 => by cases hc2; exact ⟨rfl, rfl⟩,
        fun fin hfin => Except.noConfusion hfin⟩
  | some lpc =>
      rw [hpc] at h
      dsimp only at h
      match hck : Starting.check_pre_command lpc w.logger_pre_command_probe
          w.logger_pre_command_spawn_ok now with
      | none => rw [hck] at h; exact Option.noConfusion h
      | some q =>
          obtain ⟨st, lpc2⟩ := q
          rw [hck] at h
          dsimp only at h
          cases st <;>
            simp only [Option.some.injEq, Prod.mk.injEq] at h <;>
            obtain ⟨rfl, rfl⟩ := h
          · exact ⟨fun c2 hc2 => Except.noConfusion hc2,
              fun fin hfin => by
                cases hfin
                exact ⟨⟨rfl, rfl⟩, fun hB hne => absurd rfl hne⟩⟩
          · exact ⟨fun c2 hc2 => by cases hc2; exact ⟨rfl, rfl⟩,
              fun fin hfin => Except.noConfusion hfin⟩
          · exact ⟨fun c2 hc2 => Except.noConfusion hc2,
              fun fin hfin => by
                cases hfin
                exact ⟨⟨rfl, rfl⟩, fun hB _ => t2boe_backoff_guard _ _ hB⟩⟩

/-- Counter bookkeeping of the primary pre-command stage. -/
theorem stage_pre_command_counters (w : World) (now : Nat)
    (k : ProgramState) (s : Backoff) (c : ProgramContext)
    (r : Except SFinal ProgramContext) (tr : STrace)
    (h : Starting.stage_pre_command w now k s c = some (r, tr)) :
    (∀ c2, r = Except.ok c2 →
      c2.num_restarts = c.num_restarts ∧ c2.config = c.config) ∧
    (∀ fin, r = Except.error fin →
      (fin.2.2.num_restarts = c.num_restarts ∧ fin.2.2.config = c.config) ∧
      (fin.1 = ProgramState.Backoff → fin.1 ≠ k →
        fin.2.2.num_restarts < fin.2.2.config.num_restart_attempts)) := by
  unfold Starting.stage_pre_command at h
  match hpc : c.pre_command with
  | none =>
      rw [hpc] at h
      dsimp only at h
      simp only [Option.some.injEq, Prod.mk.injEq] at h
      obtain ⟨rfl, rfl⟩ := h
      exact ⟨fun c2 hc2 => by cases hc2; exact ⟨rfl, rfl⟩,
        fun fin hfin => Except.noConfusion hfin⟩
  | some pc =>
      rw [hpc] at h
      dsimp only at h
      match hck : Starting.check_pre_command pc w.pre_command_probe
          w.pre_command_spawn_ok now with
      | none => rw [hck] at h; exact Option.noConfusion h
      | some q =>
          obtain ⟨st, pc2⟩ := q
          rw [hck] at h
          dsimp only at h
          cases st <;>
            simp only [Option.some.injEq, Prod.mk.injEq] at h <;>
            obtain ⟨rfl, rfl⟩ := h
          · exact ⟨fun c2 hc2 => Except.noConfusion hc2,
              fun fin hfin => by
                cases hfin
                exact ⟨⟨rfl, rfl⟩, fun hB hne => absurd rfl hne⟩⟩
          · exact ⟨fun c2 hc2 => by cases hc2; exact ⟨rfl, rfl⟩,
              fun fin hfin => Except.noConfusion hfin⟩
          · exact ⟨fun c2 hc2 => Except.noConfusion hc2,
              fun fin hfin => by
                cases hfin
                exact ⟨⟨rfl, rfl⟩, fun hB _ => t2boe_backoff_guard _ _ hB⟩⟩

/-- Counter bookkeeping of the spawn stage (any logger configuration). -/
theorem stage_spawn_counters (w : World) (now : Nat) (k : ProgramState)
    (s : Backoff) (c : ProgramContext) (r : Except SFinal ProgramContext)
    (tr : STrace) (h : Starting.stage_spawn w now k s c = some (r, tr)) :
    (∀ c2, r = Except.ok c2 →
      c2.num_restarts = c.num_restarts ∧ c2.config = c.config) ∧
    (∀ fin, r = Except.error fin →
      (fin.2.2.num_restarts = c.num_restarts ∧ fin.2.2.config = c.config) ∧
      (fin.1 = ProgramState.Backoff → fin.1 ≠ k →
        fin.2.2.num_restarts < fin.2.2.config.num_restart_attempts)) := by
  have hsp : ∀ (lg3 : SubprogramContext) (c3 : ProgramContext) (r3 tr3),
      Starting.spawn_primary_into_logger w now k s lg3 c3 = some (r3, tr3) →
      (∀ c2, r3 = Except.ok c2 →
        c2.num_restarts = c3.num_restarts ∧ c2.config = c3.config) ∧
      (∀ fin, r3 = Except.error fin →
        (fin.2.2.num_restarts = c3.num_restarts ∧ fin.2.2.config = c3.config) ∧
        (fin.1 = ProgramState.Backoff → fin.1 ≠ k →
          fin.2.2.num_restarts < fin.2.2.config.num_restart_attempts)) := by
    intro lg3 c3 r3 tr3 h3
    unfold Starting.spawn_primary_into_logger at h3
    by_cases hst : c3.program.start_time.isNone
    · rw [if_pos hst] at h3
      by_cases hcp : !lg3.program.child_proc
      · rw [if_pos hcp] at h3; exact Option.noConfusion h3
      · rw [if_neg hcp] at h3
        cases hstart : c3.program.program.start false w.program_probe
            w.program_spawn_ok with
        | none => rw [hstart] at h3; exact Option.noConfusion h3
        | some q =>
            obtain ⟨ok, p2⟩ := q
            rw [hstart] at h3
            dsimp only at h3
            cases ok <;>
              simp only [Bool.false_eq_true, if_false, if_true,
                Option.some.injEq, Prod.mk.injEq] at h3 <;>
              obtain ⟨rfl, rfl⟩ := h3
            · exact ⟨fun c2 hc2 => Except.noConfusion hc2,
                fun fin hfin => by
                  cases hfin
                  exact ⟨⟨rfl, rfl⟩, fun hB _ => t2boe_backoff_guard _ _ hB⟩⟩
            · exact ⟨fun c2 hc2 => by cases hc2; exact ⟨rfl, rfl⟩,
                fun fin hfin => Except.noConfusion hfin⟩
    · rw [if_neg hst] at h3
      simp only [Option.some.injEq, Prod.mk.injEq] at h3
      obtain ⟨rfl, rfl⟩ := h3
      exact ⟨fun c2 hc2 => by cases hc2; exact ⟨rfl, rfl⟩,
        fun fin hfin => Except.noConfusion hfin⟩
  unfold Starting.stage_spawn at h
  match hlg : c.logger with
  | some lg =>
      rw [hlg] at h
      dsimp only at h
      by_cases hst : lg.start_time.isNone
      · rw [if_pos hst] at h
        cases hstart : lg.program.start true w.logger_probe w.logger_spawn_ok with
        | none => rw [hstart] at h; exact Option.noConfusion h
        | some q =>
            obtain ⟨ok, p2⟩ := q
            rw [hstart] at h
            dsimp only at h
            cases ok with
            | false =>
                simp only [Bool.false_eq_true, if_false, Option.some.injEq,
                  Prod.mk.injEq] at h
                obtain ⟨rfl, rfl⟩ := h
                exact ⟨fun c2 hc2 => Except.noConfusion hc2,
                  fun fin hfin => by
                    cases hfin
                    exact ⟨⟨rfl, rfl⟩, fun hB _ => t2boe_backoff_guard _ _ hB⟩⟩
            | true =>
                simp only [if_true] at h
                split at h
                · exact Option.noConfusion h
                · rename_i r3 tr3 heq
                  simp only [Option.some.injEq, Prod.mk.injEq] at h
                  obtain ⟨rfl, rfl⟩ := h
                  obtain ⟨hok3, herr3⟩ := hsp _ _ _ _ heq
                  exact ⟨fun c2 hc2 => hok3 c2 hc2,
                    fun fin hfin => herr3 fin hfin⟩
      · rw [if_neg hst] at h
        exact hsp lg c r tr h
  | none =>
      rw [hlg] at h
      dsimp only at h
      by_cases hst : c.program.start_time.isNone
      · rw [if_pos hst] at h
        cases hstart : c.program.program.start false w.program_probe
            w.program_spawn_ok with
        | none => rw [hstart] at h; exact Option.noConfusion h
        | some q =>
            obtain ⟨ok, p2⟩ := q
            rw [hstart] at h
            dsimp only at h
            cases ok <;>
              simp only [Bool.false_eq_true, if_false, if_true,
                Option.some.injEq, Prod.mk.injEq] at h <;>
              obtain ⟨rfl, rfl⟩ := h
            · exact ⟨fun c2 hc2 => Except.noConfusion hc2,
                fun fin hfin => by
                  cases hfin
                  exact ⟨⟨rfl, rfl⟩, fun hB _ => t2boe_backoff_guard _ _ hB⟩⟩
            · exact ⟨fun c2 hc2 => by cases hc2; exact ⟨rfl, rfl⟩,
                fun fin hfin => Except.noConfusion hfin⟩
      · rw [if_neg hst] at h
        simp only [Option.some.injEq, Prod.mk.injEq] at h
        obtain ⟨rfl, rfl⟩ := h
        exact ⟨fun c2 hc2 => by cases hc2; exact ⟨rfl, rfl⟩,
          fun fin hfin => Except.noConfusion hfin⟩

/-- Counter bookkeeping of the primary start-wait stage. -/
theorem stage_check_primary_counters (w : World) (now : Nat) (k : ProgramState)
    (s : Backoff) (c : ProgramContext) (r : Except SFinal ProgramContext)
    (tr : STrace)
    (h : Starting.stage_check_primary w now k s c = some (r, tr)) :
    (∀ c2, r = Except.ok c2 →
      c2.num_restarts = c.num_restarts ∧ c2.config = c.config) ∧
    (∀ fin, r = Except.error fin →
      (fin.2.2.num_restarts = c.num_restarts ∧ fin.2.2.config = c.config) ∧
      (fin.1 = ProgramState.Backoff → fin.1 ≠ k →
        fin.2.2.num_restarts < fin.2.2.config.num_restart_attempts)) := by
  unfold Starting.stage_check_primary at h
  cases hck : Starting.check_subprogram c.program w.program_probe now with
  | none => rw [hck] at h; exact Option.noConfusion h
  | some st =>
      rw [hck] at h
      dsimp only at h
      cases st <;>
        simp only [Option.some.injEq, Prod.mk.injEq] at h <;>
        obtain ⟨rfl, rfl⟩ := h
      · exact ⟨fun c2 hc2 => Except.noConfusion hc2,
          fun fin hfin => by
            cases hfin
            exact ⟨⟨rfl, rfl⟩, fun hB hne => absurd rfl hne⟩⟩
      · exact ⟨fun c2 hc2 => by cases hc2; exact ⟨rfl, rfl⟩,
          fun fin hfin => Except.noConfusion hfin⟩
      · exact ⟨fun c2 hc2 => Except.noConfusion hc2,
          fun fin hfin => by
            cases hfin
            exact ⟨⟨rfl, rfl⟩, fun hB _ => t2boe_backoff_guard _ _ hB⟩⟩

/-- Counter bookkeeping of the logger start-wait stage. -/
theorem stage_check_logger_counters (w : World) (now : Nat) (k : ProgramState)
    (s : Backoff) (c : ProgramContext) (r : Except SFinal ProgramContext)
    (tr : STrace)
    (h : Starting.stage_check_logger w now k s c = some (r, tr)) :
    (∀ c2, r = Except.ok c2 →
      c2.num_restarts = c.num_restarts ∧ c2.config = c.config) ∧
    (∀ fin, r = Except.error fin →
      (fin.2.2.num_restarts = c.num_restarts ∧ fin.2.2.config = c.config) ∧
      (fin.1 = ProgramState.Backoff → fin.1 ≠ k →
        fin.2.2.num_restarts < fin.2.2.config.num_restart_attempts)) := by
  unfold Starting.stage_check_logger at h
  match hlg : c.logger with
  | none =>
      rw [hlg] at h
      dsimp only at h
      simp only [Option.some.injEq, Prod.mk.injEq] at h
      obtain ⟨rfl, rfl⟩ := h
      exact ⟨fun c2 hc2 => by cases hc2; exact ⟨rfl, rfl⟩,
        fun fin hfin => Except.noConfusion hfin⟩
  | some lg =>
      rw [hlg] at h
      dsimp only at h
      cases hck : Starting.check_subprogram lg w.logger_probe now with
      | none => rw [hck] at h; exact Option.noConfusion h
      | some st =>
          rw [hck] at h
          dsimp only at h
          cases st <;>
            simp only [Option.some.injEq, Prod.mk.injEq] at h <;>
            obtain ⟨rfl, rfl⟩ := h
          · exact ⟨fun c2 hc2 => Except.noConfusion hc2,
              fun fin hfin => by
                cases hfin
                exact ⟨⟨rfl, rfl⟩, fun hB hne => absurd rfl hne⟩⟩
          · exact ⟨fun c2 hc2 => by cases hc2; exact ⟨rfl, rfl⟩,
              fun fin hfin => Except.noConfusion hfin⟩
          · exact ⟨fun c2 hc2 => Except.noConfusion hc2,
              fun fin hfin => by
                cases hfin
                exact ⟨⟨rfl, rfl⟩, fun hB _ => t2boe_backoff_guard _ _ hB⟩⟩

/-- Counter-bookkeeping contract of a `Starting::update` stage outcome,
relative to the context `c` the tick began with. -/
def CounterPred (c : ProgramContext) (k : ProgramState)
    (r : Except SFinal ProgramContext) : Prop :=
  (∀ c2, r = Except.ok c2 →
    c2.num_restarts = c.num_restarts ∧ c2.config = c.config) ∧
  (∀ fin, r = Except.error fin →
    (fin.2.2.num_restarts = c.num_restarts ∧ fin.2.2.config = c.config) ∧
    (fin.1 = ProgramState.Backoff → fin.1 ≠ k →
      fin.2.2.num_restarts < fin.2.2.config.num_restart_attempts))

/-- The contract composes through equal counters. -/
theorem CounterPred.of_eq {c c1 : ProgramContext} {k : ProgramState}
    {r : Except SFinal ProgramContext} (h1 : c1.num_restarts = c.num_restarts)
    (h2 : c1.config = c.config) (hp : CounterPred c1 k r) : CounterPred c k r := by
  obtain ⟨ho, he⟩ := hp
  refine ⟨fun c2 hc2 => ?_, fun fin hfin => ?_⟩
  · obtain ⟨ha, hb⟩ := ho c2 hc2
    exact ⟨ha.trans h1, hb.trans h2⟩
  · obtain ⟨⟨ha, hb⟩, hg⟩ := he fin hfin
    exact ⟨⟨ha.trans h1, hb.trans h2⟩, hg⟩

/-- The contract composes through `stage_seq`. -/
theorem seq_counter {x : Option (Except SFinal ProgramContext × STrace)}
    {f : ProgramContext → Option (Except SFinal ProgramContext × STrace)}
    {r : Except SFinal ProgramContext} {tr : STrace} {c : ProgramContext}
    {k : ProgramState} (h : Starting.stage_seq x f = some (r, tr))
    (hx : ∀ r1 tr1, x = some (r1, tr1) → CounterPred c k r1)
    (hf : ∀ c1 r2 tr2,
      c1.num_restarts = c.num_restarts ∧ c1.config = c.config →
      f c1 = some (r2, tr2) → CounterPred c k r2) :
    CounterPred c k r := by
  rcases stage_seq_inv h with ⟨fin, hxe, rfl⟩ | ⟨c1, trx, r2, tr2, hxo, hfo, rfl, rfl⟩
  · exact hx _ _ hxe
  · exact hf c1 r tr2 ((hx _ _ hxo).1 c1 rfl) hfo

/-- The whole `Starting::update` tick keeps `num_restarts` and the config, and
only requests `Backoff` when the restart budget of the resulting context still
allows it. -/
theorem starting_update_counters (env : Env) (k : ProgramState) (s : Backoff)
    (c : ProgramContext) (fin : SFinal) (tr : STrace)
    (h : Starting.update_traced env k s c = some (fin, tr)) :
    fin.2.2.num_restarts = c.num_restarts ∧ fin.2.2.config = c.config ∧
    (fin.1 = ProgramState.Backoff → fin.1 ≠ k →
      fin.2.2.num_restarts < fin.2.2.config.num_restart_attempts) := by
  have hcp : ∀ r0 tr0,
      Starting.stage_seq (Starting.stage_seq (Starting.stage_seq
        (Starting.stage_seq
          (Starting.stage_logger_pre_command env.w1 env.now k s c)
          (Starting.stage_pre_command env.w1 env.now k s))
          (Starting.stage_spawn env.w1 env.now k s))
          (Starting.stage_check_primary env.w1 env.now k s))
          (Starting.stage_check_logger env.w1 env.now k s) = some (r0, tr0) →
      CounterPred c k r0 := by
    intro r0 tr0 h0
    refine seq_counter h0 (fun rA trA hA => ?_) (fun c1 r2 tr2 hc1 h2 => ?_)
    · refine seq_counter hA (fun rB trB hB => ?_) (fun c1 r2 tr2 hc1 h2 => ?_)
      · refine seq_counter hB (fun rC trC hC => ?_) (fun c1 r2 tr2 hc1 h2 => ?_)
        · refine seq_counter hC (fun rD trD hD => ?_) (fun c1 r2 tr2 hc1 h2 => ?_)
          · obtain ⟨ho, he⟩ :=
              stage_logger_pre_command_counters _ _ _ _ _ _ _ hD
            exact ⟨ho, he⟩
          · obtain ⟨ho, he⟩ := stage_pre_command_counters _ _ _ _ c1 _ _ h2
            exact CounterPred.of_eq hc1.1 hc1.2 ⟨ho, he⟩
        · obtain ⟨ho, he⟩ := stage_spawn_counters _ _ _ _ c1 _ _ h2
          exact CounterPred.of_eq hc1.1 hc1.2 ⟨ho, he⟩
      · obtain ⟨ho, he⟩ := stage_check_primary_counters _ _ _ _ c1 _ _ h2
        exact CounterPred.of_eq hc1.1 hc1.2 ⟨ho, he⟩
    · obtain ⟨ho, he⟩ := stage_check_logger_counters _ _ _ _ c1 _ _ h2
      exact CounterPred.of_eq hc1.1 hc1.2 ⟨ho, he⟩
  unfold Starting.update_traced at h
  dsimp only at h
  split at h
  · exact Option.noConfusion h
  · rename_i fin0 tr0 heq
    simp only [Option.some.injEq, Prod.mk.injEq] at h
    obtain ⟨rfl, rfl⟩ := h
    obtain ⟨⟨ha, hb⟩, hg⟩ := (hcp _ _ heq).2 fin0 rfl
    exact ⟨ha, hb, hg⟩
  · rename_i c5 tr0 heq
    simp only [Option.some.injEq, Prod.mk.injEq] at h
    obtain ⟨rfl, rfl⟩ := h
    obtain ⟨ha, hb⟩ := (hcp _ _ heq).1 c5 rfl
    exact ⟨ha, hb, fun hB => by simp at hB⟩

/-- `transition_to_stopped_or_restart` never selects `Backoff`. -/
theorem t2sor_ne_backoff (b : Bool) :
    transition_to_stopped_or_restart b ≠ ProgramState.Backoff := by
  unfold transition_to_stopped_or_restart
  split <;> simp

/-- `transition_to_exited_or_restart` never selects `Backoff`. -/
theorem t2eor_ne_backoff (b : Bool) :
    transition_to_exited_or_restart b ≠ ProgramState.Backoff := by
  unfold transition_to_exited_or_restart
  split <;> simp

/-- Counter bookkeeping of every state's `update` callback: `num_restarts`
and the config are untouched, and a fresh `Backoff` request comes with a
restart budget that still allows it. -/
theorem update_callback_fields (k : ProgramState) (env : Env) (s : Backoff)
    (c : ProgramContext) (k2 : ProgramState) (s2 : Backoff) (c2 : ProgramContext)
    (h : (programStates k).update env k s c = some (k2, s2, c2)) :
    c2.num_restarts = c.num_restarts ∧ c2.config = c.config ∧
    (k2 = ProgramState.Backoff → k2 ≠ k →
      c2.num_restarts < c2.config.num_restart_attempts) := by
  cases k
  case Stopped =>
    simp only [programStates, FsmState.default_update, Option.some.injEq,
      Prod.mk.injEq] at h
    obtain ⟨rfl, rfl, rfl⟩ := h
    exact ⟨rfl, rfl, fun _ hne => absurd rfl hne⟩
  case Exited =>
    simp only [programStates, FsmState.default_update, Option.some.injEq,
      Prod.mk.injEq] at h
    obtain ⟨rfl, rfl, rfl⟩ := h
    exact ⟨rfl, rfl, fun _ hne => absurd rfl hne⟩
  case Backoff =>
    simp only [programStates] at h
    unfold Backoff.update at h
    dsimp only at h
    have hpres := sigterm_or_sigkill_preserves c env.w1 env.now
    repeat' split at h
    all_goals
      first
      | exact Option.noConfusion h
      | (simp only [Option.some.injEq, Prod.mk.injEq] at h
         obtain ⟨rfl, rfl, rfl⟩ := h
         refine ⟨?_, ?_, ?_⟩ <;> simp_all)
  case Starting =>
    simp only [programStates] at h
    unfold Starting.update at h
    cases ht : Starting.update_traced env ProgramState.Starting s c with
    | none => rw [ht] at h; exact Option.noConfusion h
    | some p =>
        obtain ⟨fin, tr⟩ := p
        rw [ht] at h
        dsimp only at h
        simp only [Option.some.injEq] at h
        obtain ⟨ha, hb, hg⟩ := starting_update_counters _ _ _ _ _ _ ht
        subst h
        exact ⟨ha, hb, hg⟩
  case Running =>
    simp only [programStates] at h
    unfold Running.update at h
    split at h <;>
      simp only [Option.some.injEq, Prod.mk.injEq] at h <;>
      obtain ⟨rfl, rfl, rfl⟩ := h
    · exact ⟨rfl, rfl, fun hB _ => t2boe_backoff_guard c env.w1 hB⟩
    · exact ⟨rfl, rfl, fun _ hne => absurd rfl hne⟩
  case Stopping =>
    simp only [programStates] at h
    unfold Stopping.update at h
    have hpres := sigterm_or_sigkill_preserves c env.w1 env.now
    by_cases h1 : c.all_programs_are_stopped env.w1 = true
    · rw [if_pos h1] at h
      simp only [Option.some.injEq, Prod.mk.injEq] at h
      obtain ⟨rfl, rfl, rfl⟩ := h
      exact ⟨rfl, rfl, fun hB _ => absurd hB (t2sor_ne_backoff _)⟩
    · rw [if_neg h1] at h
      dsimp only at h
      by_cases h2 : ((c.send_sigterm_or_sigkill_signal_to_all_running_programs
          env.w1 env.now).1.all_programs_are_stopped env.w2) = true
      · rw [if_pos h2] at h
        simp only [Option.some.injEq, Prod.mk.injEq] at h
        obtain ⟨rfl, rfl, rfl⟩ := h
        exact ⟨hpres.1, hpres.2.1, fun hB _ => absurd hB (t2sor_ne_backoff _)⟩
      · rw [if_neg h2] at h
        simp only [Option.some.injEq, Prod.mk.injEq] at h
        obtain ⟨rfl, rfl, rfl⟩ := h
        exact ⟨hpres.1, hpres.2.1, fun _ hne => absurd rfl hne⟩
  case Exiting =>
    simp only [programStates] at h
    unfold Exiting.update at h
    have hpres := sigterm_or_sigkill_preserves c env.w1 env.now
    by_cases h1 : c.all_programs_are_stopped env.w1 = true
    · rw [if_pos h1] at h
      simp only [Option.some.injEq, Prod.mk.injEq] at h
      obtain ⟨rfl, rfl, rfl⟩ := h
      exact ⟨rfl, rfl, fun hB _ => absurd hB (t2eor_ne_backoff _)⟩
    · rw [if_neg h1] at h
      dsimp only at h
      by_cases h2 : ((c.send_sigterm_or_sigkill_signal_to_all_running_programs
          env.w1 env.now).1.all_programs_are_stopped env.w2) = true
      · rw [if_pos h2] at h
        simp only [Option.some.injEq, Prod.mk.injEq] at h
        obtain ⟨rfl, rfl, rfl⟩ := h
        exact ⟨hpres.1, hpres.2.1, fun hB _ => absurd hB (t2eor_ne_backoff _)⟩
      · rw [if_neg h2] at h
        simp only [Option.some.injEq, Prod.mk.injEq] at h
        obtain ⟨rfl, rfl, rfl⟩ := h
        exact ⟨hpres.1, hpres.2.1, fun _ hne => absurd rfl hne⟩

/-- Counter bookkeeping of every state's `react` callback: the config is
untouched, `num_restarts` is never raised (kept or reset to 0), `Backoff` is
never freshly requested, and after an explicit Start/Restart the counter is 0
whenever it was already 0 in the quiescent states. -/
theorem react_callback_fields (k : ProgramState) (env : Env) (e : ProgramEvent)
    (s : Backoff) (c : ProgramContext) (k2 : ProgramState) (s2 : Backoff)
    (c2 : ProgramContext) (res : MachineResult)
    (h : (programStates k).react env e k s c = some ((k2, s2, c2), res)) :
    c2.config = c.config ∧
    (c2.num_restarts = c.num_restarts ∨ c2.num_restarts = 0) ∧
    (k2 = ProgramState.Backoff → k2 = k) ∧
    ((e = ProgramEvent.Start ∨ e = ProgramEvent.Restart) →
      (k ≠ ProgramState.Backoff → k ≠ ProgramState.Starting →
        c.num_restarts = 0) →
      c2.num_restarts = 0) := by
  cases k <;> cases e <;>
    simp only [programStates, Stopped.react, Exited.react, Backoff.react,
      Starting.react, Running.react, Stopping.react, Exiting.react] at h <;>
    (try dsimp only at h) <;>
    (repeat' split at h) <;>
    simp only [Option.some.injEq, Prod.mk.injEq] at h <;>
    obtain ⟨⟨rfl, rfl, rfl⟩, rfl⟩ := h <;>
    refine ⟨rfl, ?_, ?_, ?_⟩
  all_goals first
    | exact Or.inl rfl
    | exact Or.inr rfl
    | exact fun hB => rfl
    | (intro hB
       cases hB
       done)
    | (intro he hq
       first
       | rfl
       | ((rcases he with he | he <;> cases he) ; done)
       | exact hq (by simp) (by simp))

/-- Inductive invariant of a program FSM: the restart counter never exceeds
the budget; it is zero in the quiescent states once the initial enter ran; and
before the first call the machine sits in its initial `Starting`/`Stopped`
state with a zero counter. -/
def ProgramFsmInv (m : ProgramFsm) : Prop :=
  m.app_context.num_restarts ≤ m.app_context.config.num_restart_attempts ∧
  (m.first_update = false → m.current_state_key ≠ ProgramState.Backoff →
    m.current_state_key ≠ ProgramState.Starting →
    m.app_context.num_restarts = 0) ∧
  (m.first_update = true →
    (m.current_state_key = ProgramState.Starting ∨
     m.current_state_key = ProgramState.Stopped) ∧
    m.app_context.num_restarts = 0)

/-- After the first-update enter, the invariant's operative part holds. -/
theorem inv_maybe_enter {env : Env} {m m1 : ProgramFsm}
    {h1 : List (HookEv ProgramState)} (hinv : ProgramFsmInv m)
    (hme : Machine.maybe_enter_on_first_update programStates env m =
      some (m1, h1)) :
    m1.current_state_key = m.current_state_key ∧ m1.first_update = false ∧
    m1.app_context.num_restarts ≤ m1.app_context.config.num_restart_attempts ∧
    (m1.current_state_key ≠ ProgramState.Backoff →
     m1.current_state_key ≠ ProgramState.Starting →
     m1.app_context.num_restarts = 0) := by
  obtain ⟨hk1, hf1, hno, hyes⟩ := maybe_enter_inv hme
  by_cases hf : m.first_update
  · obtain ⟨hks, hz⟩ := hinv.2.2 hf
    obtain ⟨s, c, hen, rfl, -⟩ := hyes hf
    obtain ⟨hcfg, -, -, -, hS, hQ⟩ :=
      enter_fields m.current_state_key env m.states m.app_context s c hen
    rcases hks with hks | hks
    · rw [hks] at hS
      refine ⟨rfl, rfl, ?_, fun _ hne => absurd hks hne⟩
      simp only [hS rfl, hcfg, hz]
      exact Nat.zero_le _
    · rw [hks] at hQ
      have h0 : c.num_restarts = 0 := hQ (by simp) (by simp)
      exact ⟨rfl, rfl, by simp [h0, hcfg], fun _ _ => h0⟩
  · obtain ⟨rfl, -⟩ := hno (by simpa using hf)
    exact ⟨rfl, by simpa using hf, hinv.1, hinv.2.1 (by simpa using hf)⟩

/-- `Machine.update` preserves the invariant. -/
theorem inv_update {env : Env} {m m2 : ProgramFsm}
    {hs : List (HookEv ProgramState)} (hinv : ProgramFsmInv m)
    (h : Machine.update programStates env m = some (m2, hs)) : ProgramFsmInv m2 := by
  obtain ⟨m1, h1, k2, s2, c2, h2, hme, hcb, hmc, -⟩ := machine_update_inv h
  obtain ⟨hk1, hf1, hle1, hq1⟩ := inv_maybe_enter hinv hme
  obtain ⟨hnum, hcfg, hguard⟩ :=
    update_callback_fields m1.current_state_key env m1.states m1.app_context
      k2 s2 c2 hcb
  obtain ⟨hk3, hf3, hsame, hchange⟩ := maybe_change_inv hmc
  have hf2 : m2.first_update = false := by rw [hf3]; exact hf1
  by_cases hkk : k2 = m1.current_state_key
  · obtain ⟨rfl, -⟩ := hsame (by simpa using hkk)
    refine ⟨?_, fun _ hB hS => ?_, fun hc => by rw [hf2] at hc; cases hc⟩
    · show c2.num_restarts ≤ c2.config.num_restart_attempts
      rw [hnum, hcfg]
      exact hle1
    · show c2.num_restarts = 0
      rw [hnum]
      exact hq1 (hkk ▸ hB) (hkk ▸ hS)
  · obtain ⟨s1x, c1x, s2x, c2x, hx, he, rfl, -⟩ := hchange (by simpa using hkk)
    obtain ⟨hxcfg, hxnum, -, -, -⟩ :=
      exit_fields m1.current_state_key env s2 c2 s1x c1x hx
    obtain ⟨hecfg, -, -, hB1, hS1, hQ1⟩ := enter_fields k2 env s1x c1x s2x c2x he
    refine ⟨?_, fun _ hB hS => hQ1 hB hS, fun hc => by rw [hf2] at hc; cases hc⟩
    by_cases hkB : k2 = ProgramState.Backoff
    · have hlt := hguard hkB hkk
      have e1 : c2x.num_restarts = c2.num_restarts + 1 := by rw [hB1 hkB, hxnum]
      have e2 : c2x.config = c2.config := by rw [hecfg, hxcfg]
      show c2x.num_restarts ≤ c2x.config.num_restart_attempts
      rw [e1, e2]
      omega
    · by_cases hkS : k2 = ProgramState.Starting
      · have e1 : c2x.num_restarts = c2.num_restarts := by rw [hS1 hkS, hxnum]
        have e2 : c2x.config = c2.config := by rw [hecfg, hxcfg]
        show c2x.num_restarts ≤ c2x.config.num_restart_attempts
        rw [e1, e2, hnum, hcfg]
        exact hle1
      · have e1 : c2x.num_restarts = 0 := hQ1 hkB hkS
        show c2x.num_restarts ≤ c2x.config.num_restart_attempts
        rw [e1]
        exact Nat.zero_le _

/-- `Machine.react` preserves the invariant. -/
theorem inv_react {env : Env} {e : ProgramEvent} {m m2 : ProgramFsm}
    {hs : List (HookEv ProgramState)} {res : MachineResult}
    (hinv : ProgramFsmInv m)
    (h : Machine.react programStates env e m = some ((m2, hs), res)) :
    ProgramFsmInv m2 := by
  obtain ⟨m1, h1, k2, s2, c2, h2, hme, hcb, hmc, -⟩ := machine_react_inv h
  obtain ⟨hk1, hf1, hle1, hq1⟩ := inv_maybe_enter hinv hme
  obtain ⟨hcfg, hnum, hfresh, -⟩ :=
    react_callback_fields m1.current_state_key env e m1.states m1.app_context
      k2 s2 c2 res hcb
  obtain ⟨hk3, hf3, hsame, hchange⟩ := maybe_change_inv hmc
  have hf2 : m2.first_update = false := by rw [hf3]; exact hf1
  have hle2 : c2.num_restarts ≤ c2.config.num_restart_attempts := by
    rcases hnum with hnum | hnum <;> rw [hnum, hcfg]
    · exact hle1
    · exact Nat.zero_le _
  by_cases hkk : k2 = m1.current_state_key
  · obtain ⟨rfl, -⟩ := hsame (by simpa using hkk)
    refine ⟨hle2, fun _ hB hS => ?_, fun hc => by rw [hf2] at hc; cases hc⟩
    show c2.num_restarts = 0
    rcases hnum with hnum | hnum
    · rw [hnum]
      exact hq1 (hkk ▸ hB) (hkk ▸ hS)
    · exact hnum
  · obtain ⟨s1x, c1x, s2x, c2x, hx, he, rfl, -⟩ := hchange (by simpa using hkk)
    obtain ⟨hxcfg, hxnum, -, -, -⟩ :=
      exit_fields m1.current_state_key env s2 c2 s1x c1x hx
    obtain ⟨hecfg, -, -, hB1, hS1, hQ1⟩ := enter_fields k2 env s1x c1x s2x c2x he
    have hkB : k2 ≠ ProgramState.Backoff := fun hc => hkk (hfresh hc)
    refine ⟨?_, fun _ hB hS => hQ1 hB hS, fun hc => by rw [hf2] at hc; cases hc⟩
    by_cases hkS : k2 = ProgramState.Starting
    · have e1 : c2x.num_restarts = c2.num_restarts := by rw [hS1 hkS, hxnum]
      have e2 : c2x.config = c2.config := by rw [hecfg, hxcfg]
      show c2x.num_restarts ≤ c2x.config.num_restart_attempts
      rw [e1, e2]
      exact hle2
    · have e1 : c2x.num_restarts = 0 := hQ1 hkB hkS
      show c2x.num_restarts ≤ c2x.config.num_restart_attempts
      rw [e1]
      exact Nat.zero_le _

/-- After an explicit Start/Restart react, the restart counter is 0. -/
theorem react_start_restart_zero {env : Env} {e : ProgramEvent}
    {m m2 : ProgramFsm} {hs : List (HookEv ProgramState)} {res : MachineResult}
    (hinv : ProgramFsmInv m)
    (he : e = ProgramEvent.Start ∨ e = ProgramEvent.Restart)
    (h : Machine.react programStates env e m = some ((m2, hs), res)) :
    m2.app_context.num_restarts = 0 := by
  obtain ⟨m1, h1, k2, s2, c2, h2, hme, hcb, hmc, -⟩ := machine_react_inv h
  obtain ⟨hk1, hf1, hle1, hq1⟩ := inv_maybe_enter hinv hme
  obtain ⟨hcfg, hnum, hfresh, hzero⟩ :=
    react_callback_fields m1.current_state_key env e m1.states m1.app_context
      k2 s2 c2 res hcb
  obtain ⟨hk3, hf3, hsame, hchange⟩ := maybe_change_inv hmc
  have hc2 : c2.num_restarts = 0 := hzero he hq1
  by_cases hkk : k2 = m1.current_state_key
  · obtain ⟨rfl, -⟩ := hsame (by simpa using hkk)
    exact hc2
  · obtain ⟨s1x, c1x, s2x, c2x, hx, he2, rfl, -⟩ := hchange (by simpa using hkk)
    obtain ⟨-, hxnum, -, -, -⟩ :=
      exit_fields m1.current_state_key env s2 c2 s1x c1x hx
    obtain ⟨-, -, -, hB1, hS1, hQ1⟩ := enter_fields k2 env s1x c1x s2x c2x he2
    have hkB : k2 ≠ ProgramState.Backoff := fun hc => hkk (hfresh hc)
    show c2x.num_restarts = 0
    by_cases hkS : k2 = ProgramState.Starting
    · rw [hS1 hkS, hxnum]
      exact hc2
    · exact hQ1 hkB hkS

/-- Reachability of a program FSM by `update` and `react` calls. -/
inductive ReachProgramFsm (m0 : ProgramFsm) : ProgramFsm → Prop where
  | refl : ReachProgramFsm m0 m0
  | update (env : Env) {m m2 : ProgramFsm} {hs : List (HookEv ProgramState)} :
      ReachProgramFsm m0 m →
      Machine.update programStates env m = some (m2, hs) →
      ReachProgramFsm m0 m2
  | react (env : Env) (e : ProgramEvent) {m m2 : ProgramFsm}
      {hs : List (HookEv ProgramState)} {res : MachineResult} :
      ReachProgramFsm m0 m →
      Machine.react programStates env e m = some ((m2, hs), res) →
      ReachProgramFsm m0 m2

/-- The invariant holds at the fresh machine and along every run. -/
theorem inv_reach (nm : String) (cfg : RenderedProgramConfig)
    (m : ProgramFsm) (hr : ReachProgramFsm (new_program_fsm nm cfg) m) :
    ProgramFsmInv m := by
  induction hr with
  | refl =>
      refine ⟨Nat.zero_le _, fun _ _ _ => rfl, fun _ => ⟨?_, rfl⟩⟩
      unfold new_program_fsm
      dsimp only
      split <;> simp
  | update env hr hstep ih => exact inv_update ih hstep
  | react env e hr hstep ih => exact inv_react ih hstep

/-- **C3.** Along every sequence of `update` and `react` calls from a fresh
`ProgramFsm`, `num_restarts ≤ num_restart_attempts` holds at every moment
(the counter increments only on `Backoff` entry, which is guarded by
`num_restarts < num_restart_attempts`, and every other enter resets or keeps
it); moreover immediately after any explicit client Start/Restart event the
counter is 0. -/
theorem c3_num_restarts_bounded (nm : String) (cfg : RenderedProgramConfig)
    (m : ProgramFsm) (hr : ReachProgramFsm (new_program_fsm nm cfg) m) :
    m.app_context.num_restarts ≤ m.app_context.config.num_restart_attempts ∧
    (∀ (env : Env) (e : ProgramEvent) (m2 : ProgramFsm)
        (hs : List (HookEv ProgramState)) (res : MachineResult),
      (e = ProgramEvent.Start ∨ e = ProgramEvent.Restart) →
      Machine.react programStates env e m = some ((m2, hs), res) →
      m2.app_context.num_restarts = 0) :=
  ⟨(inv_reach nm cfg m hr).1,
   fun _ _ _ _ _ he hstep => react_start_restart_zero (inv_reach nm cfg m hr) he hstep⟩

/-- The machine after the first tick of the fresh `cfg0` FSM. -/
def mAfterTick : ProgramFsm :=
  ((Machine.update programStates env0 mFresh).getD (mFresh, [])).1

/-- Witness for C3: the machine after the first tick of the fresh `cfg0` FSM
(reached via one `update` step) respects the bound. -/
theorem c3_witness :
    mAfterTick.app_context.num_restarts ≤
      mAfterTick.app_context.config.num_restart_attempts :=
  (c3_num_restarts_bounded "prog" cfg0 mAfterTick
    (@ReachProgramFsm.update (new_program_fsm "prog" cfg0) env0
      (new_program_fsm "prog" cfg0) mAfterTick
      [HookEv.enter ProgramState.Starting, HookEv.exit ProgramState.Starting,
       HookEv.enter ProgramState.Running]
      ReachProgramFsm.refl (by decide))).1
